import Mathlib

/-!
Verification development for the atlas-api repository.

Shallow embedding of the authentication layer (`atlas_api/auth.py`), the
webhook signature verification and handlers (`atlas_api/routes/webhooks.py`)
and the usage-aggregation worker (`atlas_api/worker.py`), with theorems about
the behaviours those modules implement.

Modelling conventions:
- Python `bytes` are `List Nat` with every element `< 256`.
- Python `str` is Lean `String`; `str.encode()` is UTF-8 encoding.
- Python exceptions that the code raises or catches are an explicit
  `Except PyErr` result; `hmac.compare_digest` on `str` arguments raises
  `TypeError` when either side contains a non-ASCII character (documented
  CPython behaviour), which is modelled by `PyErr.typeError`.
- Machine integers do not occur: token timestamps are unbounded `Int`
  (Python ints), SHA-256 words are `Nat` reduced mod `2 ^ 32`.
-/

/-- All elements of a byte list are genuine bytes. -/
def IsBytes (bs : List Nat) : Prop := ∀ b ∈ bs, b < 256

instance : DecidablePred IsBytes := fun bs =>
  inferInstanceAs (Decidable (∀ b ∈ bs, b < 256))

/-- UTF-8 encoding of one character (what `str.encode()` does per code point). -/
def utf8Char (c : Char) : List Nat :=
  let n := c.toNat
  if n < 128 then [n]
  else if n < 2048 then [192 + n / 64, 128 + n % 64]
  else if n < 65536 then [224 + n / 4096, 128 + n / 64 % 64, 128 + n % 64]
  else [240 + n / 262144, 128 + n / 4096 % 64, 128 + n / 64 % 64, 128 + n % 64]

/-- `str.encode()`: UTF-8 bytes of a string. -/
def utf8Encode (s : String) : List Nat := s.data.flatMap utf8Char

/-- One scalar of strict UTF-8 decoding: given the first byte and the
remaining bytes, the decoded character and the bytes after it (`none` on any
ill-formed sequence, as `bytes.decode()` raises). -/
def utf8DecodeStep (b : Nat) (rest : List Nat) : Option (Char × List Nat) :=
  if b < 128 then some (Char.ofNat b, rest)
  else if 194 ≤ b ∧ b ≤ 223 then
    match rest with
    | b2 :: rest2 =>
      if 128 ≤ b2 ∧ b2 < 192 then some (Char.ofNat ((b - 192) * 64 + (b2 - 128)), rest2)
      else none
    | [] => none
  else if 224 ≤ b ∧ b ≤ 239 then
    match rest with
    | b2 :: b3 :: rest2 =>
      if 128 ≤ b2 ∧ b2 < 192 ∧ 128 ≤ b3 ∧ b3 < 192 then
        let n := (b - 224) * 4096 + (b2 - 128) * 64 + (b3 - 128)
        if 2048 ≤ n ∧ (n < 55296 ∨ 57344 ≤ n) then some (Char.ofNat n, rest2) else none
      else none
    | _ => none
  else if 240 ≤ b ∧ b ≤ 244 then
    match rest with
    | b2 :: b3 :: b4 :: rest2 =>
      if 128 ≤ b2 ∧ b2 < 192 ∧ 128 ≤ b3 ∧ b3 < 192 ∧ 128 ≤ b4 ∧ b4 < 192 then
        let n := (b - 240) * 262144 + (b2 - 128) * 4096 + (b3 - 128) * 64 + (b4 - 128)
        if 65536 ≤ n ∧ n < 1114112 then some (Char.ofNat n, rest2) else none
      else none
    | _ => none
  else none

/-- Strict UTF-8 decoding of a byte list, fuel-driven (each step consumes at
least one byte, so `fuel = length` suffices). -/
def utf8DecodeGo : Nat → List Nat → Option (List Char)
  | _, [] => some []
  | 0, _ :: _ => none
  | fuel + 1, b :: rest =>
    match utf8DecodeStep b rest with
    | none => none
    | some (c, rest2) =>
      match utf8DecodeGo fuel rest2 with
      | some cs => some (c :: cs)
      | none => none

/-- UTF-8 decoding (what `bytes.decode()` / `json.loads` on bytes does).
Strict: ill-formed sequences yield `none`.  Only the ASCII fragment is
exercised by the theorems below (token payloads are ASCII by construction). -/
def utf8DecodeList (bs : List Nat) : Option (List Char) :=
  utf8DecodeGo bs.length bs

/-- `bytes.decode()` into a string. -/
def utf8Decode (bs : List Nat) : Option String :=
  (utf8DecodeList bs).map List.asString

/-- Python exceptions, as the code under verification distinguishes them. -/
inductive PyErr where
  /-- `AuthError(message, status_code)` from `atlas_api/auth.py`. -/
  | authError (message : String) (statusCode : Nat)
  /-- `TypeError`, raised by `hmac.compare_digest` on non-ASCII `str` input. -/
  | typeError
  /-- `AttributeError`, raised by a `.get` chain applied to a non-dict value. -/
  | attributeError
  /-- `HTTPException(status_code, detail)` raised by route handlers. -/
  | httpException (statusCode : Nat) (detail : String)
  deriving DecidableEq, Repr

deriving instance DecidableEq for Except

/-- A string is ASCII-only. -/
def StrAscii (s : String) : Prop := ∀ c ∈ s.data, c.toNat < 128

instance : DecidablePred StrAscii := fun s =>
  inferInstanceAs (Decidable (∀ c ∈ s.data, c.toNat < 128))

/-- `hmac.compare_digest(a, b)` on `str` arguments: constant-time equality,
but CPython raises `TypeError` unless both strings are ASCII-only. -/
def compare_digest (a b : String) : Except PyErr Bool :=
  if StrAscii a ∧ StrAscii b then .ok (a = b) else .error .typeError

-- ── base64url (models `_b64_encode` / `_b64_decode` of auth.py) ──────

/-- The urlsafe base64 alphabet character of a sextet. -/
def b64Char (n : Nat) : Char :=
  if n < 26 then Char.ofNat (65 + n)
  else if n < 52 then Char.ofNat (97 + (n - 26))
  else if n < 62 then Char.ofNat (48 + (n - 52))
  else if n = 62 then Char.ofNat 45
  else Char.ofNat 95

/-- Value of a urlsafe base64 alphabet character. -/
def b64CharVal (c : Char) : Option Nat :=
  let n := c.toNat
  if 65 ≤ n ∧ n ≤ 90 then some (n - 65)
  else if 97 ≤ n ∧ n ≤ 122 then some (26 + (n - 97))
  else if 48 ≤ n ∧ n ≤ 57 then some (52 + (n - 48))
  else if n = 45 then some 62
  else if n = 95 then some 63
  else none

/-- `_b64_encode`: urlsafe base64 of a byte list with the `=` padding already
stripped (the source strips it with `rstrip(b"=")`). -/
def b64EncodeList : List Nat → List Char
  | [] => []
  | [b1] => [b64Char (b1 / 4), b64Char (b1 % 4 * 16)]
  | [b1, b2] => [b64Char (b1 / 4), b64Char (b1 % 4 * 16 + b2 / 16), b64Char (b2 % 16 * 4)]
  | b1 :: b2 :: b3 :: rest =>
    b64Char (b1 / 4) :: b64Char (b1 % 4 * 16 + b2 / 16) ::
    b64Char (b2 % 16 * 4 + b3 / 64) :: b64Char (b3 % 64) :: b64EncodeList rest

/-- `_b64_encode` on strings. -/
def b64Encode (bs : List Nat) : String := (b64EncodeList bs).asString

/-- `_b64_decode`: re-pads to a multiple of 4 and decodes.  The net effect on
padding-free alphabet input is decoding quanta of 4 with a final quantum of
2 or 3 characters; a final quantum of 1 character raises `binascii.Error`
(→ `none`), as does a non-alphabet character.  (CPython would silently discard
non-alphabet characters; no theorem below evaluates the decoder off the
alphabet, every use is on `_b64_encode` output.) -/
def b64DecodeList : List Char → Option (List Nat)
  | [] => some []
  | [_] => none
  | [c1, c2] => do
    let s1 ← b64CharVal c1
    let s2 ← b64CharVal c2
    pure [s1 * 4 + s2 / 16]
  | [c1, c2, c3] => do
    let s1 ← b64CharVal c1
    let s2 ← b64CharVal c2
    let s3 ← b64CharVal c3
    pure [s1 * 4 + s2 / 16, s2 % 16 * 16 + s3 / 4]
  | c1 :: c2 :: c3 :: c4 :: rest => do
    let s1 ← b64CharVal c1
    let s2 ← b64CharVal c2
    let s3 ← b64CharVal c3
    let s4 ← b64CharVal c4
    let tail ← b64DecodeList rest
    pure ((s1 * 4 + s2 / 16) :: (s2 % 16 * 16 + s3 / 4) :: (s3 % 4 * 64 + s4) :: tail)

/-- `_b64_decode` on strings. -/
def b64Decode (s : String) : Option (List Nat) := b64DecodeList s.data

-- ── SHA-256 (models `hashlib.sha256`) ────────────────────────────────

/-- Truncate to a 32-bit word. -/
def w32 (n : Nat) : Nat := n % 4294967296

/-- Right-rotation of a 32-bit word. -/
def rotr (k n : Nat) : Nat := n / 2 ^ k + n % 2 ^ k * 2 ^ (32 - k)

/-- SHA-256 round constants (decimal). -/
def sha256K : List Nat :=
  [1116352408, 1899447441, 3049323471, 3921009573, 961987163,
   1508970993, 2453635748, 2870763221, 3624381080, 310598401,
   607225278, 1426881987, 1925078388, 2162078206, 2614888103,
   3248222580, 3835390401, 4022224774, 264347078, 604807628,
   770255983, 1249150122, 1555081692, 1996064986, 2554220882,
   2821834349, 2952996808, 3210313671, 3336571891, 3584528711,
   113926993, 338241895, 666307205, 773529912, 1294757372,
   1396182291, 1695183700, 1986661051, 2177026350, 2456956037,
   2730485921, 2820302411, 3259730800, 3345764771, 3516065817,
   3600352804, 4094571909, 275423344, 430227734, 506948616,
   659060556, 883997877, 958139571, 1322822218, 1537002063,
   1747873779, 1955562222, 2024104815, 2227730452, 2361852424,
   2428436474, 2756734187, 3204031479, 3329325298]

/-- SHA-256 initial hash value (decimal). -/
def sha256IV : List Nat :=
  [1779033703, 3144134277, 1013904242, 2773480762, 1359893119,
   2600822924, 528734635, 1541459225]

/-- Big-endian 8-byte encoding of a (length) value. -/
def be64 (n : Nat) : List Nat :=
  [n / 2 ^ 56 % 256, n / 2 ^ 48 % 256, n / 2 ^ 40 % 256, n / 2 ^ 32 % 256,
   n / 2 ^ 24 % 256, n / 2 ^ 16 % 256, n / 2 ^ 8 % 256, n % 256]

/-- SHA-256 message padding. -/
def sha256Pad (msg : List Nat) : List Nat :=
  let len := msg.length
  let k := (119 - len % 64) % 64
  msg ++ 128 :: List.replicate k 0 ++ be64 (len * 8)

/-- Pack bytes into big-endian 32-bit words. -/
def bytesToWords : List Nat → List Nat
  | b1 :: b2 :: b3 :: b4 :: rest =>
    (b1 * 2 ^ 24 + b2 * 2 ^ 16 + b3 * 2 ^ 8 + b4) :: bytesToWords rest
  | _ => []

/-- Split the padded byte list into 16-word blocks (fuel-driven so that the
definition reduces in the kernel). -/
def toBlocks : Nat → List Nat → List (List Nat)
  | 0, _ => []
  | _, [] => []
  | fuel + 1, ws => ws.take 16 :: toBlocks fuel (ws.drop 16)

/-- One message-schedule extension step: append `w[t]` for `t = length`. -/
def scheduleStep (acc : List Nat) : List Nat :=
  let n := acc.length
  let wm2 := acc.getD (n - 2) 0
  let wm7 := acc.getD (n - 7) 0
  let wm15 := acc.getD (n - 15) 0
  let wm16 := acc.getD (n - 16) 0
  let s0 := rotr 7 wm15 ^^^ rotr 18 wm15 ^^^ wm15 / 2 ^ 3
  let s1 := rotr 17 wm2 ^^^ rotr 19 wm2 ^^^ wm2 / 2 ^ 10
  acc ++ [w32 (s0 + s1 + wm7 + wm16)]

/-- The 64-entry message schedule of one block. -/
def sha256Schedule (block : List Nat) : List Nat :=
  (List.range 48).foldl (fun acc _ => scheduleStep acc) block

/-- Working state of the compression function. -/
structure Sha256State where
  a : Nat
  b : Nat
  c : Nat
  d : Nat
  e : Nat
  f : Nat
  g : Nat
  h : Nat
  deriving Repr

/-- One compression round. -/
def sha256Round (st : Sha256State) (kw : Nat × Nat) : Sha256State :=
  let S1 := rotr 6 st.e ^^^ rotr 11 st.e ^^^ rotr 25 st.e
  let ch := st.e &&& st.f ^^^ (4294967295 - st.e) &&& st.g
  let temp1 := w32 (st.h + S1 + ch + kw.1 + kw.2)
  let S0 := rotr 2 st.a ^^^ rotr 13 st.a ^^^ rotr 22 st.a
  let maj := st.a &&& st.b ^^^ st.a &&& st.c ^^^ st.b &&& st.c
  let temp2 := w32 (S0 + maj)
  ⟨w32 (temp1 + temp2), st.a, st.b, st.c, w32 (st.d + temp1), st.e, st.f, st.g⟩

/-- Compress one block into the running hash (a list of 8 words). -/
def sha256Compress (hs : List Nat) (block : List Nat) : List Nat :=
  let ws := sha256Schedule block
  let init : Sha256State :=
    ⟨hs.getD 0 0, hs.getD 1 0, hs.getD 2 0, hs.getD 3 0,
     hs.getD 4 0, hs.getD 5 0, hs.getD 6 0, hs.getD 7 0⟩
  let fin := (sha256K.zip ws).foldl sha256Round init
  [w32 (hs.getD 0 0 + fin.a), w32 (hs.getD 1 0 + fin.b),
   w32 (hs.getD 2 0 + fin.c), w32 (hs.getD 3 0 + fin.d),
   w32 (hs.getD 4 0 + fin.e), w32 (hs.getD 5 0 + fin.f),
   w32 (hs.getD 6 0 + fin.g), w32 (hs.getD 7 0 + fin.h)]

/-- Big-endian bytes of a 32-bit word. -/
def wordBytes (n : Nat) : List Nat :=
  [n / 2 ^ 24 % 256, n / 2 ^ 16 % 256, n / 2 ^ 8 % 256, n % 256]

/-- `hashlib.sha256(msg).digest()`: the 32-byte SHA-256 digest. -/
def sha256 (msg : List Nat) : List Nat :=
  let ws := bytesToWords (sha256Pad msg)
  let blocks := toBlocks (ws.length + 1) ws
  (blocks.foldl sha256Compress sha256IV).flatMap wordBytes

-- ── HMAC (models `hmac.new(key, msg, hashlib.sha256)`) ───────────────

/-- HMAC key normalisation: hash keys longer than the 64-byte block, then
zero-pad to the block size. -/
def hmacKeyPad (key : List Nat) : List Nat :=
  let k0 := if key.length > 64 then sha256 key else key
  k0 ++ List.replicate (64 - k0.length) 0

/-- `hmac.new(key, msg, hashlib.sha256).digest()`. -/
def hmacSha256 (key msg : List Nat) : List Nat :=
  let k := hmacKeyPad key
  let ipad := k.map (fun b => b ^^^ 54)
  let opad := k.map (fun b => b ^^^ 92)
  sha256 (opad ++ sha256 (ipad ++ msg))

/-- A lowercase hex digit character. -/
def hexChar (n : Nat) : Char :=
  if n < 10 then Char.ofNat (48 + n) else Char.ofNat (97 + (n - 10))

/-- `.hexdigest()`: lowercase hex of a byte list. -/
def hexDigest (bs : List Nat) : String :=
  (bs.flatMap (fun b => [hexChar (b / 16), hexChar (b % 16)])).asString

/-- `_hmac_sign(payload, secret)` from auth.py: base64url-encoded
HMAC-SHA256 of the UTF-8 payload under the UTF-8 secret. -/
def hmacSign (payload secret : String) : String :=
  b64Encode (hmacSha256 (utf8Encode secret) (utf8Encode payload))

-- ── JSON (models `json.dumps` / `json.loads` on token payloads) ──────

/-- Four lowercase hex digits (the `XXXX` of a `\uXXXX` escape). -/
def hex4 (n : Nat) : List Char :=
  [hexChar (n / 4096 % 16), hexChar (n / 256 % 16), hexChar (n / 16 % 16), hexChar (n % 16)]

/-- `json.dumps` escaping of one character (`ensure_ascii=True` default):
`"` and `\` are backslash-escaped, printable ASCII is literal, the five
C-escapes are short forms, every other code point becomes `\uXXXX`
(a surrogate pair beyond the BMP). -/
def escapeChar (c : Char) : List Char :=
  let n := c.toNat
  if c = '"' then ['\\', '"']
  else if c = '\\' then ['\\', '\\']
  else if 32 ≤ n ∧ n ≤ 126 then [c]
  else if n = 8 then ['\\', 'b']
  else if n = 9 then ['\\', 't']
  else if n = 10 then ['\\', 'n']
  else if n = 12 then ['\\', 'f']
  else if n = 13 then ['\\', 'r']
  else if n < 65536 then '\\' :: 'u' :: hex4 n
  else
    let m := n - 65536
    ('\\' :: 'u' :: hex4 (55296 + m / 1024)) ++ ('\\' :: 'u' :: hex4 (56320 + m % 1024))

/-- `json.dumps` of a string value. -/
def jsonQuote (s : String) : String :=
  ('"' :: (s.data.flatMap escapeChar ++ ['"'])).asString

/-- Decimal digits of a positive number, least significant first (fuel-driven). -/
def natDigsRev : Nat → Nat → List Char
  | 0, _ => []
  | _ + 1, 0 => []
  | f + 1, n + 1 => Char.ofNat (48 + (n + 1) % 10) :: natDigsRev f ((n + 1) / 10)

/-- Python `str` of a non-negative integer. -/
def pyNatRepr (n : Nat) : List Char :=
  if n = 0 then ['0'] else (natDigsRev n n).reverse

/-- Python `str` of an integer (what `json.dumps` emits for an `int`). -/
def pyIntRepr (i : Int) : List Char :=
  if i < 0 then '-' :: pyNatRepr i.natAbs else pyNatRepr i.natAbs

/-- `json.dumps` of the token payload dict built by `create_token`
(insertion order sub, username, role, exp, iat; default separators). -/
def jsonDumpsTokenPayload (sub username role : String) (exp iat : Int) : String :=
  ("\x7b\"sub\": ") ++ jsonQuote sub ++ (", \"username\": ") ++ jsonQuote username ++
  (", \"role\": ") ++ jsonQuote role ++ (", \"exp\": ") ++ (pyIntRepr exp).asString ++
  (", \"iat\": ") ++ (pyIntRepr iat).asString ++ ("\x7d")

/-- `json.dumps({"alg": "HS256", "typ": "JWT"})`. -/
def jsonHeaderStr : String := "\x7b\"alg\": \"HS256\", \"typ\": \"JWT\"\x7d"

/-- Strip an exact expected prefix. -/
def expectChars : List Char → List Char → Option (List Char)
  | [], l => some l
  | _ :: _, [] => none
  | p :: ps, c :: cs => if c = p then expectChars ps cs else none

/-- Value of a hex digit (JSON accepts both cases). -/
def hexVal (c : Char) : Option Nat :=
  let n := c.toNat
  if 48 ≤ n ∧ n ≤ 57 then some (n - 48)
  else if 97 ≤ n ∧ n ≤ 102 then some (n - 97 + 10)
  else if 65 ≤ n ∧ n ≤ 70 then some (n - 65 + 10)
  else none

/-- Result of decoding one element of a JSON string body: the closing quote,
one character, or a strict-mode rejection. -/
inductive UnescStepRes where
  | close (rest : List Char)
  | chr (c : Char) (rest : List Char)
  | bad
  deriving DecidableEq, Repr

/-- A `\\uXXXX` low-surrogate continuation, combined with the pending high
surrogate value `v`. -/
def unescPair (v : Nat) : List Char → UnescStepRes
  | e1 :: e2 :: k1 :: k2 :: k3 :: k4 :: rest4 =>
    if e1 = '\\' ∧ e2 = 'u' then
      match hexVal k1, hexVal k2, hexVal k3, hexVal k4 with
      | some g1, some g2, some g3, some g4 =>
        let w := g1 * 4096 + g2 * 256 + g3 * 16 + g4
        if 56320 ≤ w ∧ w < 57344 then
          .chr (Char.ofNat (65536 + (v - 55296) * 1024 + (w - 56320))) rest4
        else .bad
      | _, _, _, _ => .bad
    else .bad
  | _ => .bad

/-- A `\\uXXXX` escape: a BMP scalar directly, or a high surrogate that must
be followed by a low surrogate (a lone surrogate escape - which CPython would
turn into a lone-surrogate `str` - has no `Char` counterpart and is `bad`;
no encoder output contains one). -/
def unescU : List Char → UnescStepRes
  | c1 :: c2 :: c3 :: c4 :: rest3 =>
    match hexVal c1, hexVal c2, hexVal c3, hexVal c4 with
    | some d1, some d2, some d3, some d4 =>
      let v := d1 * 4096 + d2 * 256 + d3 * 16 + d4
      if v < 55296 ∨ 57344 ≤ v then .chr (Char.ofNat v) rest3
      else if v < 56320 then unescPair v rest3
      else .bad
    | _, _, _, _ => .bad
  | _ => .bad

/-- A backslash escape (the backslash already consumed). -/
def unescEsc : List Char → UnescStepRes
  | [] => .bad
  | e :: rest2 =>
    if e = '"' then .chr '"' rest2
    else if e = '\\' then .chr '\\' rest2
    else if e = '/' then .chr '/' rest2
    else if e = 'b' then .chr (Char.ofNat 8) rest2
    else if e = 'f' then .chr (Char.ofNat 12) rest2
    else if e = 'n' then .chr (Char.ofNat 10) rest2
    else if e = 'r' then .chr (Char.ofNat 13) rest2
    else if e = 't' then .chr (Char.ofNat 9) rest2
    else if e = 'u' then unescU rest2
    else .bad

/-- One element of a JSON string body, as `json.loads` reads it (strict mode:
raw control characters are rejected). -/
def unescStep : List Char → UnescStepRes
  | [] => .bad
  | c :: rest =>
    if c = '"' then .close rest
    else if c = '\\' then unescEsc rest
    else if c.toNat < 32 then .bad
    else .chr c rest

/-- Fuel-driven loop over a JSON string body (each step consumes at least one
character, so `length + 1` fuel suffices). -/
def unescGo : Nat → List Char → Option (List Char × List Char)
  | 0, _ => none
  | fuel + 1, cs =>
    match unescStep cs with
    | .close rest => some ([], rest)
    | .bad => none
    | .chr c rest =>
      match unescGo fuel rest with
      | some p => some (c :: p.1, p.2)
      | none => none

/-- Body of a JSON string literal, after the opening quote: returns the decoded
characters and the rest after the closing quote. -/
def unescapeBody (cs : List Char) : Option (List Char × List Char) :=
  unescGo (cs.length + 1) cs

/-- A JSON string literal. -/
def parseJsonString : List Char → Option (String × List Char)
  | [] => none
  | c :: rest =>
    if c = '"' then (unescapeBody rest).map (fun p => (p.1.asString, p.2)) else none

/-- Longest decimal-digit prefix. -/
def readDigits : List Char → List Char × List Char
  | [] => ([], [])
  | c :: rest =>
    if 48 ≤ c.toNat ∧ c.toNat ≤ 57 then
      let p := readDigits rest
      (c :: p.1, p.2)
    else ([], c :: rest)

/-- Value of a digit list, most significant first. -/
def digitsToNat (ds : List Char) : Nat :=
  ds.foldl (fun a c => a * 10 + (c.toNat - 48)) 0

/-- A JSON integer literal. -/
def parseJsonInt (cs : List Char) : Option (Int × List Char) :=
  match cs with
  | [] => none
  | c :: rest =>
    if c = '-' then
      match readDigits rest with
      | ([], _) => none
      | (ds, r) => some (-(digitsToNat ds : Int), r)
    else
      match readDigits (c :: rest) with
      | ([], _) => none
      | (ds, r) => some ((digitsToNat ds : Int), r)

/-- The token payload. -/
structure TokenPayload where
  sub : String
  username : String
  role : String
  exp : Int
  iat : Int
  deriving DecidableEq, Repr

/-- `json.loads` restricted to the token-payload grammar that `create_token`
emits — the only payload shape any theorem below ever parses (`verify_token`
rejects tampered tokens before this point is reached). -/
def parseTokenPayloadChars (cs : List Char) : Option TokenPayload := do
  let r0 ← expectChars ("\x7b\"sub\": ").data cs
  let (sub, r1) ← parseJsonString r0
  let r2 ← expectChars (", \"username\": ").data r1
  let (username, r3) ← parseJsonString r2
  let r4 ← expectChars (", \"role\": ").data r3
  let (role, r5) ← parseJsonString r4
  let r6 ← expectChars (", \"exp\": ").data r5
  let (expv, r7) ← parseJsonInt r6
  let r8 ← expectChars (", \"iat\": ").data r7
  let (iatv, r9) ← parseJsonInt r8
  let r10 ← expectChars ("\x7d").data r9
  if r10 = [] then pure ⟨sub, username, role, expv, iatv⟩ else none

/-- `json.loads` of decoded payload bytes. -/
def parseTokenPayload (bs : List Nat) : Option TokenPayload := do
  let cs ← utf8DecodeList bs
  parseTokenPayloadChars cs

-- ── Python string helpers ────────────────────────────────────────────

/-- `str.split(sep)` (no maxsplit), on characters. -/
def pySplitChars (sep : Char) : List Char → List (List Char)
  | [] => [[]]
  | c :: rest =>
    let r := pySplitChars sep rest
    if c = sep then [] :: r
    else
      match r with
      | h :: t => (c :: h) :: t
      | [] => [[c]]

/-- `str.split(sep)`. -/
def pySplit (sep : Char) (s : String) : List String :=
  (pySplitChars sep s.data).map List.asString

/-- `str.split(sep, 1)`: split at the first occurrence only, on characters. -/
def pySplitFirstChars (sep : Char) : List Char → List (List Char)
  | [] => [[]]
  | c :: rest =>
    if c = sep then [[], rest]
    else
      match pySplitFirstChars sep rest with
      | h :: t => (c :: h) :: t
      | [] => [[c]]

/-- `str.split(sep, 1)`. -/
def pySplit1 (sep : Char) (s : String) : List String :=
  (pySplitFirstChars sep s.data).map List.asString

-- ── auth.py ──────────────────────────────────────────────────────────

/-- The `User` model of auth.py (`metadata` as an association list). -/
structure User where
  id : String
  username : String
  role : String := ("viewer")
  email : String := ("")
  metadata : List (String × String) := []
  deriving DecidableEq, Repr

/-- Default development secret (`_JWT_SECRET`). -/
def _JWT_SECRET : String := "atlas-dev-secret-change-in-production"

/-- `_JWT_EXPIRY_SECONDS`. -/
def _JWT_EXPIRY_SECONDS : Int := 3600

/-- `create_token(user, secret, expiry)`.  The two `int(time.time())` calls of
the source are the injected instant `now`. -/
def create_token (user : User) (secret : String) (expiry : Int) (now : Int) : String :=
  let header := b64Encode (utf8Encode jsonHeaderStr)
  let payload := b64Encode (utf8Encode
    (jsonDumpsTokenPayload user.id user.username user.role (now + expiry) now))
  let signature := hmacSign (header ++ (".") ++ payload) secret
  header ++ (".") ++ payload ++ (".") ++ signature

/-- `verify_token(token, secret)` at instant `now`: split into exactly three
segments, check the signature (constant-time, before any payload decode),
decode and parse the payload, check expiry, rebuild the `User`.
The payload parse subsumes `payload["sub"]` / `payload["username"]` /
`payload.get("role", "viewer")` / `payload.get("exp", 0)`: every payload it
accepts carries all five fields. -/
def verify_token (token : String) (secret : String) (now : Int) : Except PyErr User :=
  match pySplit '.' token with
  | [header_b64, payload_b64, signature] =>
    let expected_sig := hmacSign (header_b64 ++ (".") ++ payload_b64) secret
    (match compare_digest signature expected_sig with
     | .error e => .error e
     | .ok false => .error (.authError ("Invalid token signature") 401)
     | .ok true =>
       match b64Decode payload_b64 >>= parseTokenPayload with
       | none => .error (.authError ("Invalid token payload") 401)
       | some payload =>
         if payload.exp < now then .error (.authError ("Token expired") 401)
         else .ok ⟨payload.sub, payload.username, payload.role, "", []⟩)
  | _ => .error (.authError ("Invalid token format") 401)

/-- `verify_api_key(key)` against the key registry (the module-level
`_api_keys` dict, passed explicitly). -/
def verify_api_key (key : String) (api_keys : List (String × User)) : Except PyErr User :=
  match api_keys.lookup key with
  | none => .error (.authError ("Invalid API key") 401)
  | some u => .ok u

/-- ASCII lowering of one character. -/
def lowerChar (c : Char) : Char :=
  if 65 ≤ c.toNat ∧ c.toNat ≤ 90 then Char.ofNat (c.toNat + 32) else c

/-- `str.lower()`, restricted to ASCII case folding.  Header values reach this
code decoded as latin-1; on that range Python lowers only `A`–`Z` into ASCII,
so comparing `pyLower scheme` against the ASCII literals `"bearer"` /
`"apikey"` agrees with `scheme.lower() == ...` in the source. -/
def pyLower (s : String) : String := (s.data.map lowerChar).asString

/-- `get_current_user(authorization)`. -/
def get_current_user (authorization : String) (api_keys : List (String × User))
    (now : Int) : Except PyErr User :=
  if authorization = "" then .error (.authError ("Missing authorization header") 401)
  else
    match pySplit1 ' ' authorization with
    | [scheme, credential] =>
      if pyLower scheme = ("bearer") then verify_token credential _JWT_SECRET now
      else if pyLower scheme = ("apikey") then verify_api_key credential api_keys
      else .error (.authError (("Unsupported auth scheme: ") ++ scheme) 401)
    | _ => .error (.authError ("Invalid authorization format") 401)

/-- The `role_levels` dict of `require_role`, with its `.get(role, 0)` default. -/
def role_levels (role : String) : Nat :=
  if role = ("viewer") then 0
  else if role = ("auditor") then 1
  else if role = ("admin") then 2
  else 0

/-- `require_role(user, required_role)`. -/
def require_role (user : User) (required_role : String) : Except PyErr Unit :=
  let user_level := role_levels user.role
  let required_level := role_levels required_role
  if user_level < required_level then
    .error (.authError (("Insufficient permissions: ") ++ user.role ++
      (" cannot perform ") ++ required_role ++ (" actions")) 403)
  else .ok ()

-- ── routes/webhooks.py ───────────────────────────────────────────────

/-- `startswith` on strings. -/
def pyStartsWith (s p : String) : Bool := p.data.isPrefixOf s.data

/-- `_verify_github_signature(body, signature_header, secret)`: empty secret
skips verification; otherwise the header must be present with the `sha256=`
prefix and equal (constant-time) the prefixed hex HMAC-SHA256 of the body. -/
def _verify_github_signature (body : List Nat) (signature_header : String)
    (secret : String) : Except PyErr Bool :=
  if secret = "" then .ok true
  else if signature_header = "" ∨ ¬ pyStartsWith signature_header ("sha256=") then .ok false
  else
    let expected := ("sha256=") ++ hexDigest (hmacSha256 (utf8Encode secret) body)
    compare_digest expected signature_header

/-- `_verify_gitlab_token(token_header, secret)`: empty secret skips
verification; otherwise the header must be non-empty and equal the secret
under `hmac.compare_digest`. -/
def _verify_gitlab_token (token_header : String) (secret : String) : Except PyErr Bool :=
  if secret = "" then .ok true
  else if token_header = "" then .ok false
  else compare_digest secret token_header

/-- The `WebhookResponse` model. -/
structure WebhookResponse where
  status : String
  message : String
  event_id : Option String
  deriving DecidableEq, Repr

/-- A parsed JSON value (the `json.loads` result; number literals restricted
to integers, which is all any theorem below needs). -/
inductive JsonVal where
  | null
  | bool (b : Bool)
  | num (n : Int)
  | str (s : String)
  | arr (elems : List JsonVal)
  | obj (fields : List (String × JsonVal))

/-- `value.get(key, default)`: a dict looks the key up, falling back to the
default; calling `.get` on any non-dict value — `None`, a list, a string, a
number, a bool — raises `AttributeError`, exactly what happens in the
handlers when a parse-succeeding body is not a JSON object. -/
def jsonGet (v : JsonVal) (key : String) (default : JsonVal) : Except PyErr JsonVal :=
  match v with
  | .obj fields => .ok ((fields.lookup key).getD default)
  | _ => .error .attributeError

/-- Python `str()` of a JSON value, used only inside the human-readable
response message.  Exact for strings, integers, booleans and `None`; for
lists and dicts it abbreviates the repr rendering — no theorem below pins a
message built from a list or dict (the accepted-response theorems leave the
message existential). -/
def pyStr : JsonVal → String
  | .str s => s
  | .num n => (pyIntRepr n).asString
  | .bool true => ("True")
  | .bool false => ("False")
  | .null => ("None")
  | .arr _ => ("[...]")
  | .obj _ => ("\x7b...\x7d")

/-- A `webhook_events` row, holding the Python values the handler passes to
the INSERT — strings on every well-formed payload, but faithfully whatever
the `.get` chains produced. -/
structure WebhookEventRow where
  id : String
  platform : String
  event_type : JsonVal
  repository : JsonVal
  ref : JsonVal
  sender : JsonVal
  action : JsonVal
  received_at : Int

/-- The field extraction of `github_webhook` (webhooks.py lines 85–88):
`payload.get("repository", \x7b\x7d).get("full_name", "")`, `payload.get("ref", "")`,
`payload.get("sender", \x7b\x7d).get("login", "")`, `payload.get("action", "")`.
Raises `AttributeError` when the payload — or a present `repository` /
`sender` member — is not a dict. -/
def githubExtract (payload : JsonVal) :
    Except PyErr (JsonVal × JsonVal × JsonVal × JsonVal) := do
  let repoObj ← jsonGet payload ("repository") (.obj [])
  let repository ← jsonGet repoObj ("full_name") (.str (""))
  let ref ← jsonGet payload ("ref") (.str (""))
  let senderObj ← jsonGet payload ("sender") (.obj [])
  let sender ← jsonGet senderObj ("login") (.str (""))
  let action ← jsonGet payload ("action") (.str (""))
  pure (repository, ref, sender, action)

/-- The field extraction of `gitlab_webhook` (webhooks.py lines 136–140):
`payload.get("object_kind", "unknown")`,
`payload.get("project", \x7b\x7d).get("path_with_namespace", "")`,
`payload.get("ref", "")`, `payload.get("user_name", "")`. -/
def gitlabExtract (payload : JsonVal) :
    Except PyErr (JsonVal × JsonVal × JsonVal × JsonVal) := do
  let event_type ← jsonGet payload ("object_kind") (.str ("unknown"))
  let projObj ← jsonGet payload ("project") (.obj [])
  let repository ← jsonGet projObj ("path_with_namespace") (.str (""))
  let ref ← jsonGet payload ("ref") (.str (""))
  let sender ← jsonGet payload ("user_name") (.str (""))
  pure (event_type, repository, ref, sender)

/-- The `github_webhook` handler: verify the signature (401 on failure), parse
the JSON body (`parsed` is the `json.loads` result, `none` when that parse
raises → 400), run the `.get` field extraction — whose `AttributeError` on a
non-object payload propagates out of the handler uncaught — then insert the
event row (`insert_ok = false` means the insert raised and the exception was
caught and logged) and return the accepted response carrying the fresh
`event_id`. -/
def github_webhook (body : List Nat) (x_hub_signature_256 : String) (secret : String)
    (parsed : Option JsonVal) (event_type_header : String) (event_id : String)
    (insert_ok : Bool) (now : Int) (events : List WebhookEventRow) :
    Except PyErr (WebhookResponse × List WebhookEventRow) :=
  match _verify_github_signature body x_hub_signature_256 secret with
  | .error e => .error e
  | .ok false => .error (.httpException 401 ("Invalid webhook signature"))
  | .ok true =>
    match parsed with
    | none => .error (.httpException 400 ("Invalid JSON payload"))
    | some payload =>
      match githubExtract payload with
      | .error e => .error e
      | .ok (repository, ref, sender, action) =>
        let row : WebhookEventRow :=
          ⟨event_id, ("github"), .str event_type_header, repository, ref, sender,
           action, now⟩
        let events2 := if insert_ok then events ++ [row] else events
        .ok (⟨("accepted"),
              ("GitHub ") ++ event_type_header ++ (" event received for ") ++
                pyStr repository,
              some event_id⟩, events2)

/-- The `gitlab_webhook` handler: verify the shared token (401 on failure),
parse the JSON body (400 on failure), run the `.get` field extraction (an
`AttributeError` propagates uncaught), insert the event row (`insert_ok =
false` means the insert raised and was caught), and return the accepted
response. -/
def gitlab_webhook (x_gitlab_token : String) (secret : String)
    (parsed : Option JsonVal) (event_id : String) (insert_ok : Bool)
    (now : Int) (events : List WebhookEventRow) :
    Except PyErr (WebhookResponse × List WebhookEventRow) :=
  match _verify_gitlab_token x_gitlab_token secret with
  | .error e => .error e
  | .ok false => .error (.httpException 401 ("Invalid webhook token"))
  | .ok true =>
    match parsed with
    | none => .error (.httpException 400 ("Invalid JSON payload"))
    | some payload =>
      match gitlabExtract payload with
      | .error e => .error e
      | .ok (event_type, repository, ref, sender) =>
        let row : WebhookEventRow :=
          ⟨event_id, ("gitlab"), event_type, repository, ref, sender, .str (""), now⟩
        let events2 := if insert_ok then events ++ [row] else events
        .ok (⟨("accepted"),
              ("GitLab ") ++ pyStr event_type ++ (" event received for ") ++
                pyStr repository,
              some event_id⟩, events2)

-- ── worker.py ────────────────────────────────────────────────────────

/-- The parsed JSON payload of a stream message, as `run_usage_worker` reads
it: `tenant_id` is `payload.get("tenant_id")` (absent or non-string → `none`),
`metadata_tenant_id` is the `tenant_id` entry of `payload.get("metadata", ...)`
(`none` when metadata is absent or lacks the key), `tokens_used` is
`payload.get("tokens_used", 0)`. -/
structure WorkerPayload where
  tenant_id : Option String
  metadata_tenant_id : Option String
  tokens_used : Int
  deriving DecidableEq, Repr

/-- The tenant-id extraction of worker.py line 46:
`payload.get("tenant_id") or payload.get("metadata", {}).get("tenant_id", "default")`.
Python `or` treats the empty string as absent. -/
def extractTenantId (p : WorkerPayload) : String :=
  match p.tenant_id with
  | some s => if s = "" then p.metadata_tenant_id.getD ("default") else s
  | none => p.metadata_tenant_id.getD ("default")

/-- A `tenants` row. -/
structure TenantRow where
  id : String
  name : String
  plan_tier : String
  deriving DecidableEq, Repr

/-- A `tenant_usage` row. -/
structure TenantUsageRow where
  tenant_id : String
  scans_count : Int
  token_count : Int
  last_updated : Int
  deriving DecidableEq, Repr

/-- The two tables the worker touches; `id` / `tenant_id` are primary keys. -/
structure WorkerDb where
  tenants : List TenantRow
  tenant_usage : List TenantUsageRow
  deriving DecidableEq, Repr

/-- `INSERT INTO tenants … ON CONFLICT (id) DO NOTHING`. -/
def insertTenantIfAbsent (tid : String) (db : WorkerDb) : WorkerDb :=
  if db.tenants.any (fun r => r.id = tid) then db
  else ⟨db.tenants ++ [⟨tid, tid, ("free")⟩], db.tenant_usage⟩

/-- `INSERT INTO tenant_usage … ON CONFLICT (tenant_id) DO NOTHING`
(counters start at zero). -/
def insertUsageIfAbsent (tid : String) (db : WorkerDb) : WorkerDb :=
  if db.tenant_usage.any (fun r => r.tenant_id = tid) then db
  else ⟨db.tenants, db.tenant_usage ++ [⟨tid, 0, 0, 0⟩]⟩

/-- `UPDATE tenant_usage SET token_count = token_count + %s, last_updated = NOW()`. -/
def updateTokens (tid : String) (tokens : Int) (now : Int) (db : WorkerDb) : WorkerDb :=
  ⟨db.tenants, db.tenant_usage.map (fun r =>
    if r.tenant_id = tid then ⟨r.tenant_id, r.scans_count, r.token_count + tokens, now⟩
    else r)⟩

/-- `UPDATE tenant_usage SET scans_count = scans_count + 1, last_updated = NOW()`. -/
def updateScans (tid : String) (now : Int) (db : WorkerDb) : WorkerDb :=
  ⟨db.tenants, db.tenant_usage.map (fun r =>
    if r.tenant_id = tid then ⟨r.tenant_id, r.scans_count + 1, r.token_count, now⟩
    else r)⟩

/-- The per-message body of the worker loop (worker.py lines 45–79), for a
successfully parsed payload: upsert the tenant and usage rows, then increment
the counter selected by the stream the message arrived on. -/
def processMessage (stream : String) (p : WorkerPayload) (now : Int) (db : WorkerDb) :
    WorkerDb :=
  let tenant_id := extractTenantId p
  let db1 := insertTenantIfAbsent tenant_id db
  let db2 := insertUsageIfAbsent tenant_id db1
  if stream = ("atlas.ai.usage") then updateTokens tenant_id p.tokens_used now db2
  else if stream = ("atlas.scan.requests") then updateScans tenant_id now db2
  else db2

/-- A stream entry as read by `xreadgroup`: its message id and the result of
`json.loads(fields.get("payload", "\x7b\x7d"))` — `none` when that parse (or
any other step of processing the message) raises. -/
structure StreamMsg where
  msgId : String
  parse : Option WorkerPayload
  deriving DecidableEq, Repr

/-- The `try` block for one message: `none` parses raise, everything else
runs `processMessage`. -/
def tryProcessMessage (stream : String) (now : Int) (m : StreamMsg) (db : WorkerDb) :
    Except Unit WorkerDb :=
  match m.parse with
  | none => .error ()
  | some p => .ok (processMessage stream p now db)

/-- The `try … except … finally` around one message: an exception leaves the
database untouched (it is logged), and the `finally` acknowledges the message
to the consumer group in every case. -/
def handleEntry (stream : String) (now : Int)
    (state : WorkerDb × List (String × String)) (m : StreamMsg) :
    WorkerDb × List (String × String) :=
  let db2 :=
    match tryProcessMessage stream now m state.1 with
    | .ok d => d
    | .error _ => state.1
  (db2, state.2 ++ [(stream, m.msgId)])

/-- One batch of the consumer loop: `for stream, entries in messages: for
msg_id, fields in entries: …`, carrying the database and the list of
`xack`-ed `(stream, msg_id)` pairs in order. -/
def processBatch (now : Int) (messages : List (String × List StreamMsg)) (db : WorkerDb) :
    WorkerDb × List (String × String) :=
  messages.foldl (fun st se => se.2.foldl (handleEntry se.1 now) st) (db, [])

-- ── Helper lemmas: characters ────────────────────────────────────────

theorem charOfNat_toNat (n : Nat) (h : Nat.isValidChar n) : (Char.ofNat n).toNat = n := by
  simp [Char.ofNat, dif_pos h, Char.ofNatAux, Char.toNat, UInt32.toNat]

theorem char_toNat_valid (c : Char) : Nat.isValidChar c.toNat := c.valid

theorem char_toNat_lt (c : Char) : c.toNat < 1114112 := by
  rcases char_toNat_valid c with h | h <;> omega

theorem char_not_surrogate (c : Char) : ¬ (55296 ≤ c.toNat ∧ c.toNat < 57344) := by
  rcases char_toNat_valid c with h | h <;> omega

theorem charOfNat_eq_self (c : Char) : Char.ofNat c.toNat = c :=
  Char.eq_of_val_eq (UInt32.ext (charOfNat_toNat c.toNat c.valid))

theorem charOfNat_toNat_small (n : Nat) (h : n < 55296) : (Char.ofNat n).toNat = n :=
  charOfNat_toNat n (Or.inl h)

theorem asString_data (s : String) : List.asString s.data = s := rfl

theorem char_eq_iff_toNat (c d : Char) : c = d ↔ c.toNat = d.toNat := by
  constructor
  · intro h; rw [h]
  · intro h; exact Char.eq_of_val_eq (UInt32.ext h)

-- ── Helper lemmas: base64url ─────────────────────────────────────────

theorem b64CharVal_b64Char : ∀ n, n < 64 → b64CharVal (b64Char n) = some n := by decide

theorem b64Char_ne_dot : ∀ n, n < 64 → b64Char n ≠ '.' := by decide

theorem b64Char_ascii : ∀ n, n < 64 → (b64Char n).toNat < 128 := by decide

/-- `_b64_decode` is a left inverse of `_b64_encode` on byte lists. -/
theorem b64_roundtrip : ∀ bs : List Nat, IsBytes bs →
    b64DecodeList (b64EncodeList bs) = some bs := by
  intro bs
  induction bs using b64EncodeList.induct with
  | case1 => intro _; rfl
  | case2 b1 =>
    intro h
    have h1 : b1 < 256 := h b1 (by simp)
    simp only [b64EncodeList, b64DecodeList,
      b64CharVal_b64Char _ (by omega : b1 / 4 < 64),
      b64CharVal_b64Char _ (by omega : b1 % 4 * 16 < 64)]
    simp only [Option.bind_eq_bind, Option.some_bind, Option.pure_def, Option.some.injEq]
    congr 1
    omega
  | case3 b1 b2 =>
    intro h
    have h1 : b1 < 256 := h b1 (by simp)
    have h2 : b2 < 256 := h b2 (by simp)
    simp only [b64EncodeList, b64DecodeList,
      b64CharVal_b64Char _ (by omega : b1 / 4 < 64),
      b64CharVal_b64Char _ (by omega : b1 % 4 * 16 + b2 / 16 < 64),
      b64CharVal_b64Char _ (by omega : b2 % 16 * 4 < 64)]
    simp only [Option.bind_eq_bind, Option.some_bind, Option.pure_def, Option.some.injEq]
    congr 2 <;> omega
  | case4 b1 b2 b3 rest ih =>
    intro h
    have h1 : b1 < 256 := h b1 (by simp)
    have h2 : b2 < 256 := h b2 (by simp)
    have h3 : b3 < 256 := h b3 (by simp)
    have hrest : IsBytes rest := fun b hb => h b (by simp [hb])
    have hdec := ih hrest
    simp only [b64EncodeList, b64DecodeList,
      b64CharVal_b64Char _ (by omega : b1 / 4 < 64),
      b64CharVal_b64Char _ (by omega : b1 % 4 * 16 + b2 / 16 < 64),
      b64CharVal_b64Char _ (by omega : b2 % 16 * 4 + b3 / 64 < 64),
      b64CharVal_b64Char _ (by omega : b3 % 64 < 64)]
    simp only [Option.bind_eq_bind, Option.some_bind, Option.pure_def, hdec, Option.some.injEq]
    congr 3 <;> omega

/-- Every character `_b64_encode` emits is a base64url alphabet character. -/
theorem mem_b64EncodeList : ∀ bs : List Nat, IsBytes bs →
    ∀ c ∈ b64EncodeList bs, ∃ n, n < 64 ∧ c = b64Char n := by
  intro bs
  induction bs using b64EncodeList.induct with
  | case1 => intro _ c hc; simp [b64EncodeList] at hc
  | case2 b1 =>
    intro h c hc
    have h1 : b1 < 256 := h b1 (by simp)
    simp only [b64EncodeList, List.mem_cons, List.mem_singleton, List.not_mem_nil,
      or_false] at hc
    rcases hc with rfl | rfl
    · exact ⟨b1 / 4, by omega, rfl⟩
    · exact ⟨b1 % 4 * 16, by omega, rfl⟩
  | case3 b1 b2 =>
    intro h c hc
    have h1 : b1 < 256 := h b1 (by simp)
    have h2 : b2 < 256 := h b2 (by simp)
    simp only [b64EncodeList, List.mem_cons, List.not_mem_nil, or_false] at hc
    rcases hc with rfl | rfl | rfl
    · exact ⟨b1 / 4, by omega, rfl⟩
    · exact ⟨b1 % 4 * 16 + b2 / 16, by omega, rfl⟩
    · exact ⟨b2 % 16 * 4, by omega, rfl⟩
  | case4 b1 b2 b3 rest ih =>
    intro h c hc
    have h1 : b1 < 256 := h b1 (by simp)
    have h2 : b2 < 256 := h b2 (by simp)
    have h3 : b3 < 256 := h b3 (by simp)
    have hrest : IsBytes rest := fun b hb => h b (by simp [hb])
    simp only [b64EncodeList, List.mem_cons] at hc
    rcases hc with rfl | rfl | rfl | rfl | hc
    · exact ⟨b1 / 4, by omega, rfl⟩
    · exact ⟨b1 % 4 * 16 + b2 / 16, by omega, rfl⟩
    · exact ⟨b2 % 16 * 4 + b3 / 64, by omega, rfl⟩
    · exact ⟨b3 % 64, by omega, rfl⟩
    · exact ih hrest c hc

theorem b64EncodeList_no_dot (bs : List Nat) (h : IsBytes bs) :
    ∀ c ∈ b64EncodeList bs, c ≠ '.' := by
  intro c hc
  obtain ⟨n, hn, rfl⟩ := mem_b64EncodeList bs h c hc
  exact b64Char_ne_dot n hn

theorem b64EncodeList_ascii (bs : List Nat) (h : IsBytes bs) :
    ∀ c ∈ b64EncodeList bs, c.toNat < 128 := by
  intro c hc
  obtain ⟨n, hn, rfl⟩ := mem_b64EncodeList bs h c hc
  exact b64Char_ascii n hn

-- ── Helper lemmas: UTF-8 ─────────────────────────────────────────────

theorem utf8Char_bytes (c : Char) : IsBytes (utf8Char c) := by
  have := char_toNat_lt c
  intro b hb
  simp only [utf8Char] at hb
  by_cases h1 : c.toNat < 128
  · simp [if_pos h1] at hb; omega
  · simp only [if_neg h1] at hb
    by_cases h2 : c.toNat < 2048
    · simp [if_pos h2] at hb; rcases hb with rfl | rfl <;> omega
    · simp only [if_neg h2] at hb
      by_cases h3 : c.toNat < 65536
      · simp [if_pos h3] at hb; rcases hb with rfl | rfl | rfl <;> omega
      · simp [if_neg h3] at hb; rcases hb with rfl | rfl | rfl | rfl <;> omega

theorem utf8Encode_bytes (s : String) : IsBytes (utf8Encode s) := by
  intro b hb
  simp only [utf8Encode, List.mem_flatMap] at hb
  obtain ⟨c, _, hbc⟩ := hb
  exact utf8Char_bytes c b hbc

theorem utf8Char_ascii (c : Char) (h : c.toNat < 128) : utf8Char c = [c.toNat] := by
  unfold utf8Char
  rw [if_pos h]

theorem utf8Encode_ascii (cs : List Char) (h : ∀ c ∈ cs, c.toNat < 128) :
    cs.flatMap utf8Char = cs.map Char.toNat := by
  induction cs with
  | nil => rfl
  | cons c rest ih =>
    rw [List.flatMap_cons, List.map_cons, utf8Char_ascii c (h c (by simp)),
      List.singleton_append, ih fun d hd => h d (by simp [hd])]

theorem utf8DecodeStep_ascii (b : Nat) (hb : b < 128) (bs : List Nat) :
    utf8DecodeStep b bs = some (Char.ofNat b, bs) := by
  unfold utf8DecodeStep
  rw [if_pos hb]

theorem utf8DecodeGo_ascii (cs : List Char) (h : ∀ c ∈ cs, c.toNat < 128) :
    ∀ fuel, cs.length ≤ fuel → utf8DecodeGo fuel (cs.map Char.toNat) = some cs := by
  induction cs with
  | nil => intro fuel _; cases fuel <;> rfl
  | cons c rest ih =>
    intro fuel hf
    have hc : c.toNat < 128 := h c (by simp)
    have ihr := ih fun d hd => h d (by simp [hd])
    match fuel, hf with
    | f + 1, hf =>
      rw [List.map_cons, utf8DecodeGo, utf8DecodeStep_ascii _ hc]
      simp only [ihr f (by simpa using hf), charOfNat_eq_self]

theorem utf8Decode_ascii (cs : List Char) (h : ∀ c ∈ cs, c.toNat < 128) :
    utf8DecodeList (cs.map Char.toNat) = some cs := by
  rw [utf8DecodeList]
  exact utf8DecodeGo_ascii cs h _ (by simp)

/-- UTF-8 round-trips on ASCII character lists. -/
theorem utf8_roundtrip_ascii (cs : List Char) (h : ∀ c ∈ cs, c.toNat < 128) :
    utf8DecodeList (cs.flatMap utf8Char) = some cs := by
  rw [utf8Encode_ascii cs h]
  exact utf8Decode_ascii cs h

-- ── Helper lemmas: Python split ──────────────────────────────────────

theorem pySplitChars_sepFree (sep : Char) :
    ∀ xs : List Char, sep ∉ xs → pySplitChars sep xs = [xs] := by
  intro xs
  induction xs with
  | nil => intro _; rfl
  | cons c rest ih =>
    intro h
    have hc : c ≠ sep := fun hh => h (by simp [hh])
    have hrest : sep ∉ rest := fun hh => h (by simp [hh])
    simp only [pySplitChars, ih hrest, if_neg hc]

theorem pySplitChars_append (sep : Char) :
    ∀ xs ys : List Char, sep ∉ xs →
      pySplitChars sep (xs ++ sep :: ys) = xs :: pySplitChars sep ys := by
  intro xs ys
  induction xs with
  | nil => intro _; simp [pySplitChars]
  | cons c rest ih =>
    intro h
    have hc : c ≠ sep := fun hh => h (by simp [hh])
    have hrest : sep ∉ rest := fun hh => h (by simp [hh])
    simp only [List.cons_append, pySplitChars, if_neg hc]
    have ih2 : pySplitChars sep (rest.append (sep :: ys)) = rest :: pySplitChars sep ys :=
      ih hrest
    rw [ih2]

/-- Splitting a three-segment dot-joined string whose segments are dot-free. -/
theorem pySplit_three (h p s : String) (hh : '.' ∉ h.data) (hp : '.' ∉ p.data)
    (hs : '.' ∉ s.data) :
    pySplit '.' (h ++ (".") ++ p ++ (".") ++ s) = [h, p, s] := by
  unfold pySplit
  have hdata : (h ++ (".") ++ p ++ (".") ++ s).data
      = h.data ++ '.' :: (p.data ++ '.' :: s.data) := by
    show h.data ++ ['.'] ++ p.data ++ ['.'] ++ s.data = _
    simp
  rw [hdata, pySplitChars_append _ _ _ hh, pySplitChars_append _ _ _ hp,
    pySplitChars_sepFree _ _ hs]
  show [List.asString h.data, List.asString p.data, List.asString s.data] = _
  simp only [List.asString]

-- ── Helper lemmas: JSON string escaping ──────────────────────────────

theorem hexVal_hexChar : ∀ d, d < 16 → hexVal (hexChar d) = some d := by decide

theorem hexChar_ascii : ∀ d, d < 16 → (hexChar d).toNat < 128 := by decide


theorem hex4_digits (n : Nat) :
    hex4 n = [hexChar (n / 4096 % 16), hexChar (n / 256 % 16),
      hexChar (n / 16 % 16), hexChar (n % 16)] := rfl


-- ── Helper lemmas: JSON string escape inversion ─────────────────────

theorem unescU_hex4 (n : Nat) (hn : n < 65536) (hs : n < 55296 ∨ 57344 ≤ n)
    (rest : List Char) :
    unescU (hex4 n ++ rest) = .chr (Char.ofNat n) rest := by
  show unescU (hexChar (n / 4096 % 16) :: hexChar (n / 256 % 16) ::
    hexChar (n / 16 % 16) :: hexChar (n % 16) :: rest) = _
  unfold unescU
  simp only []
  rw [hexVal_hexChar _ (by omega), hexVal_hexChar _ (by omega),
    hexVal_hexChar _ (by omega), hexVal_hexChar _ (by omega)]
  simp only []
  have hv : n / 4096 % 16 * 4096 + n / 256 % 16 * 256 + n / 16 % 16 * 16 + n % 16 = n := by
    omega
  rw [hv, if_pos hs]

theorem unescU_pair (hi lo : Nat) (hhi : 55296 ≤ hi ∧ hi < 56320)
    (hlo : 56320 ≤ lo ∧ lo < 57344) (rest : List Char) :
    unescU (hex4 hi ++ ('\\' :: 'u' :: hex4 lo) ++ rest) =
      .chr (Char.ofNat (65536 + (hi - 55296) * 1024 + (lo - 56320))) rest := by
  show unescU (hexChar (hi / 4096 % 16) :: hexChar (hi / 256 % 16) ::
    hexChar (hi / 16 % 16) :: hexChar (hi % 16) ::
    '\\' :: 'u' :: hexChar (lo / 4096 % 16) :: hexChar (lo / 256 % 16) ::
    hexChar (lo / 16 % 16) :: hexChar (lo % 16) :: rest) = _
  unfold unescU
  simp only []
  rw [hexVal_hexChar _ (by omega), hexVal_hexChar _ (by omega),
    hexVal_hexChar _ (by omega), hexVal_hexChar _ (by omega)]
  simp only []
  have h1 : hi / 4096 % 16 * 4096 + hi / 256 % 16 * 256 + hi / 16 % 16 * 16 + hi % 16
      = hi := by omega
  rw [h1, if_neg (by omega), if_pos (by omega)]
  unfold unescPair
  simp only []
  rw [if_pos ⟨trivial, trivial⟩]
  rw [hexVal_hexChar _ (by omega), hexVal_hexChar _ (by omega),
    hexVal_hexChar _ (by omega), hexVal_hexChar _ (by omega)]
  simp only []
  have h2 : lo / 4096 % 16 * 4096 + lo / 256 % 16 * 256 + lo / 16 % 16 * 16 + lo % 16
      = lo := by omega
  rw [h2, if_pos (by omega)]

theorem unescStep_quote (rest : List Char) : unescStep ('"' :: rest) = .close rest := by
  unfold unescStep
  simp only []
  rw [if_pos trivial]

theorem unescStep_backslash (e : Char) (rest : List Char) :
    unescStep ('\\' :: e :: rest) = unescEsc (e :: rest) := by
  unfold unescStep
  simp only []
  rw [if_neg (by decide), if_pos trivial]

theorem unescStep_plain (c : Char) (h1 : c ≠ '"') (h2 : c ≠ '\\') (h3 : 32 ≤ c.toNat)
    (rest : List Char) : unescStep (c :: rest) = .chr c rest := by
  unfold unescStep
  simp only []
  rw [if_neg h1, if_neg h2, if_neg (by omega)]

theorem unescEsc_char (e : Char) (rest : List Char) :
    unescEsc (e :: rest) =
      (if e = '"' then .chr '"' rest
      else if e = '\\' then .chr '\\' rest
      else if e = '/' then .chr '/' rest
      else if e = 'b' then .chr (Char.ofNat 8) rest
      else if e = 'f' then .chr (Char.ofNat 12) rest
      else if e = 'n' then .chr (Char.ofNat 10) rest
      else if e = 'r' then .chr (Char.ofNat 13) rest
      else if e = 't' then .chr (Char.ofNat 9) rest
      else if e = 'u' then unescU rest
      else .bad) := by
  unfold unescEsc
  simp only []

/-- The key inversion step: `unescStep` decodes exactly the escape that
`escapeChar` produced, for every character. -/
theorem unescStep_escape (c : Char) (rest : List Char) :
    unescStep (escapeChar c ++ rest) = .chr c rest := by
  by_cases hq : c = '"'
  · subst hq
    show unescStep ('\\' :: '"' :: rest) = _
    rw [unescStep_backslash, unescEsc_char, if_pos rfl]
  by_cases hb : c = '\\'
  · subst hb
    show unescStep ('\\' :: '\\' :: rest) = _
    rw [unescStep_backslash, unescEsc_char, if_neg (by decide), if_pos rfl]
  have hesc : escapeChar c =
      (if 32 ≤ c.toNat ∧ c.toNat ≤ 126 then [c]
       else if c.toNat = 8 then ['\\', 'b']
       else if c.toNat = 9 then ['\\', 't']
       else if c.toNat = 10 then ['\\', 'n']
       else if c.toNat = 12 then ['\\', 'f']
       else if c.toNat = 13 then ['\\', 'r']
       else if c.toNat < 65536 then '\\' :: 'u' :: hex4 c.toNat
       else ('\\' :: 'u' :: hex4 (55296 + (c.toNat - 65536) / 1024)) ++
         ('\\' :: 'u' :: hex4 (56320 + (c.toNat - 65536) % 1024))) := by
    unfold escapeChar
    rw [if_neg hq, if_neg hb]
  by_cases hpr : 32 ≤ c.toNat ∧ c.toNat ≤ 126
  · rw [hesc, if_pos hpr]
    exact unescStep_plain c hq hb (by omega) rest
  by_cases h8 : c.toNat = 8
  · rw [hesc, if_neg hpr, if_pos h8]
    show unescStep ('\\' :: 'b' :: rest) = _
    rw [unescStep_backslash, unescEsc_char, if_neg (by decide), if_neg (by decide),
      if_neg (by decide), if_pos rfl,
      show Char.ofNat 8 = c by rw [← h8, charOfNat_eq_self]]
  by_cases h9 : c.toNat = 9
  · rw [hesc, if_neg hpr, if_neg h8, if_pos h9]
    show unescStep ('\\' :: 't' :: rest) = _
    rw [unescStep_backslash, unescEsc_char, if_neg (by decide), if_neg (by decide),
      if_neg (by decide), if_neg (by decide), if_neg (by decide), if_neg (by decide),
      if_neg (by decide), if_pos rfl,
      show Char.ofNat 9 = c by rw [← h9, charOfNat_eq_self]]
  by_cases h10 : c.toNat = 10
  · rw [hesc, if_neg hpr, if_neg h8, if_neg h9, if_pos h10]
    show unescStep ('\\' :: 'n' :: rest) = _
    rw [unescStep_backslash, unescEsc_char, if_neg (by decide), if_neg (by decide),
      if_neg (by decide), if_neg (by decide), if_neg (by decide), if_pos rfl,
      show Char.ofNat 10 = c by rw [← h10, charOfNat_eq_self]]
  by_cases h12 : c.toNat = 12
  · rw [hesc, if_neg hpr, if_neg h8, if_neg h9, if_neg h10, if_pos h12]
    show unescStep ('\\' :: 'f' :: rest) = _
    rw [unescStep_backslash, unescEsc_char, if_neg (by decide), if_neg (by decide),
      if_neg (by decide), if_neg (by decide), if_pos rfl,
      show Char.ofNat 12 = c by rw [← h12, charOfNat_eq_self]]
  by_cases h13 : c.toNat = 13
  · rw [hesc, if_neg hpr, if_neg h8, if_neg h9, if_neg h10, if_neg h12, if_pos h13]
    show unescStep ('\\' :: 'r' :: rest) = _
    rw [unescStep_backslash, unescEsc_char, if_neg (by decide), if_neg (by decide),
      if_neg (by decide), if_neg (by decide), if_neg (by decide), if_neg (by decide),
      if_pos rfl,
      show Char.ofNat 13 = c by rw [← h13, charOfNat_eq_self]]
  by_cases hbmp : c.toNat < 65536
  · rw [hesc, if_neg hpr, if_neg h8, if_neg h9, if_neg h10, if_neg h12, if_neg h13,
      if_pos hbmp]
    show unescStep ('\\' :: 'u' :: (hex4 c.toNat ++ rest)) = _
    rw [unescStep_backslash, unescEsc_char, if_neg (by decide), if_neg (by decide),
      if_neg (by decide), if_neg (by decide), if_neg (by decide), if_neg (by decide),
      if_neg (by decide), if_neg (by decide), if_pos rfl,
      unescU_hex4 c.toNat hbmp (by have := char_not_surrogate c; omega) rest,
      charOfNat_eq_self]
  · rw [hesc, if_neg hpr, if_neg h8, if_neg h9, if_neg h10, if_neg h12, if_neg h13,
      if_neg hbmp]
    have hlt := char_toNat_lt c
    show unescStep ('\\' :: 'u' ::
      (hex4 (55296 + (c.toNat - 65536) / 1024) ++
        ('\\' :: 'u' :: hex4 (56320 + (c.toNat - 65536) % 1024)) ++ rest)) = _
    rw [unescStep_backslash, unescEsc_char, if_neg (by decide), if_neg (by decide),
      if_neg (by decide), if_neg (by decide), if_neg (by decide), if_neg (by decide),
      if_neg (by decide), if_neg (by decide), if_pos rfl,
      unescU_pair _ _ ⟨by omega, by omega⟩ ⟨by omega, by omega⟩ rest]
    have harg : 65536 + (55296 + (c.toNat - 65536) / 1024 - 55296) * 1024 +
        (56320 + (c.toNat - 65536) % 1024 - 56320) = c.toNat := by omega
    rw [harg, charOfNat_eq_self]

theorem escapeChar_length_pos (c : Char) : 0 < (escapeChar c).length := by
  simp only [escapeChar]
  split_ifs <;> simp [hex4]

theorem length_le_flatMap_escape (cs : List Char) :
    cs.length ≤ (cs.flatMap escapeChar).length := by
  induction cs with
  | nil => simp
  | cons c rest ih =>
    simp only [List.flatMap_cons, List.length_cons, List.length_append]
    have := escapeChar_length_pos c
    omega

theorem unescGo_flat (cs : List Char) :
    ∀ (fuel : Nat) (rest : List Char), cs.length + 1 ≤ fuel →
      unescGo fuel (cs.flatMap escapeChar ++ '"' :: rest) = some (cs, rest) := by
  induction cs with
  | nil =>
    intro fuel rest hf
    match fuel, hf with
    | f + 1, _ =>
      show unescGo (f + 1) ('"' :: rest) = _
      unfold unescGo
      rw [unescStep_quote]
  | cons c cs ih =>
    intro fuel rest hf
    match fuel, hf with
    | f + 1, hf =>
      have harr : (c :: cs).flatMap escapeChar ++ '"' :: rest
          = escapeChar c ++ (cs.flatMap escapeChar ++ '"' :: rest) := by
        simp [List.flatMap_cons]
      rw [harr]
      unfold unescGo
      rw [unescStep_escape]
      simp only []
      rw [ih f rest (by simp at hf; omega)]

/-- `unescapeBody` undoes `escapeChar`-escaping of a whole string body. -/
theorem unescapeBody_flat (cs : List Char) (rest : List Char) :
    unescapeBody (cs.flatMap escapeChar ++ '"' :: rest) = some (cs, rest) := by
  unfold unescapeBody
  apply unescGo_flat
  have := length_le_flatMap_escape cs
  simp only [List.length_append, List.length_cons]
  omega

/-- `parseJsonString` undoes `jsonQuote`. -/
theorem parseJsonString_quote (s : String) (rest : List Char) :
    parseJsonString ((jsonQuote s).data ++ rest) = some (s, rest) := by
  have hq : (jsonQuote s).data = '"' :: (s.data.flatMap escapeChar ++ ['"']) := rfl
  rw [hq]
  show parseJsonString ('"' :: ((s.data.flatMap escapeChar ++ ['"']) ++ rest)) = _
  unfold parseJsonString
  simp only []
  rw [if_pos trivial, List.append_assoc]
  show (unescapeBody (s.data.flatMap escapeChar ++ '"' :: rest)).map _ = _
  rw [unescapeBody_flat]
  show some ((List.asString s.data), rest) = _
  rw [show List.asString s.data = s from rfl]

-- ── Helper lemmas: decimal integer representation ────────────────────

theorem natDigsRev_zero : ∀ f, natDigsRev f 0 = [] := by
  intro f
  cases f <;> rfl

theorem natDigsRev_digits : ∀ f n, ∀ c ∈ natDigsRev f n, 48 ≤ c.toNat ∧ c.toNat ≤ 57 := by
  intro f
  induction f with
  | zero => intro n c hc; simp [natDigsRev] at hc
  | succ f ih =>
    intro n c hc
    match n with
    | 0 => simp [natDigsRev] at hc
    | m + 1 =>
      rw [natDigsRev] at hc
      rcases List.mem_cons.1 hc with rfl | hmem
      · rw [charOfNat_toNat_small _ (by omega)]
        omega
      · exact ih _ c hmem

theorem natDigsRev_val : ∀ f n, 0 < n → n ≤ f →
    ∀ acc, ((natDigsRev f n).reverse).foldl (fun a c => a * 10 + (c.toNat - 48)) acc
      = acc * 10 ^ (natDigsRev f n).length + n := by
  intro f
  induction f with
  | zero => intro n h1 h2; omega
  | succ f ih =>
    intro n h1 h2 acc
    match n, h1 with
    | m + 1, _ =>
      rw [natDigsRev]
      rw [List.reverse_cons, List.foldl_append]
      by_cases hq : (m + 1) / 10 = 0
      · rw [hq, natDigsRev_zero]
        simp only [List.reverse_nil, List.foldl_nil, List.foldl_cons, List.length_cons,
          List.length_nil]
        rw [charOfNat_toNat_small _ (by omega)]
        have : (m + 1) % 10 = m + 1 := by omega
        simp [this]
      · have hqle : (m + 1) / 10 ≤ f := by omega
        rw [ih _ (by omega) hqle acc]
        simp only [List.foldl_cons, List.foldl_nil, List.length_cons]
        rw [charOfNat_toNat_small _ (by omega)]
        have hrec : (m + 1) / 10 * 10 + (48 + (m + 1) % 10 - 48) = m + 1 := by omega
        rw [pow_succ]
        ring_nf
        omega

theorem pyNatRepr_digits (n : Nat) : ∀ c ∈ pyNatRepr n, 48 ≤ c.toNat ∧ c.toNat ≤ 57 := by
  intro c hc
  unfold pyNatRepr at hc
  by_cases h : n = 0
  · rw [if_pos h] at hc
    simp at hc
    subst hc
    decide
  · rw [if_neg h] at hc
    exact natDigsRev_digits n n c (List.mem_reverse.1 hc)

theorem pyNatRepr_ne_nil (n : Nat) : pyNatRepr n ≠ [] := by
  unfold pyNatRepr
  by_cases h : n = 0
  · rw [if_pos h]; simp
  · rw [if_neg h]
    intro hcon
    have : natDigsRev n n = [] := by
      have := congrArg List.reverse hcon
      simpa using this
    match hn : n, h with
    | m + 1, _ =>
      rw [natDigsRev] at this
      simp at this

theorem digitsToNat_pyNatRepr (n : Nat) : digitsToNat (pyNatRepr n) = n := by
  unfold pyNatRepr digitsToNat
  by_cases h : n = 0
  · rw [if_pos h]
    subst h
    decide
  · rw [if_neg h]
    have := natDigsRev_val n n (by omega) (le_refl n) 0
    simpa using this

/-- `readDigits` consumes exactly a digit block followed by a non-digit. -/
theorem readDigits_append (ds : List Char) (hds : ∀ c ∈ ds, 48 ≤ c.toNat ∧ c.toNat ≤ 57) :
    ∀ (c : Char) (tail : List Char), ¬ (48 ≤ c.toNat ∧ c.toNat ≤ 57) →
      readDigits (ds ++ c :: tail) = (ds, c :: tail) := by
  induction ds with
  | nil =>
    intro c tail hc
    rw [List.nil_append, readDigits, if_neg hc]
  | cons d ds ih =>
    intro c tail hc
    have hd : 48 ≤ d.toNat ∧ d.toNat ≤ 57 := hds d (by simp)
    rw [List.cons_append, readDigits, if_pos hd,
      ih (fun x hx => hds x (by simp [hx])) c tail hc]

/-- `parseJsonInt` undoes `pyIntRepr` when followed by a non-digit. -/
theorem parseJsonInt_repr (i : Int) (c : Char) (tail : List Char)
    (hc : ¬ (48 ≤ c.toNat ∧ c.toNat ≤ 57)) :
    parseJsonInt (pyIntRepr i ++ c :: tail) = some (i, c :: tail) := by
  unfold pyIntRepr
  by_cases hneg : i < 0
  · rw [if_pos hneg, List.cons_append, parseJsonInt]
    rw [if_pos rfl]
    rw [readDigits_append _ (pyNatRepr_digits _) c tail hc]
    have hne := pyNatRepr_ne_nil i.natAbs
    match hp : pyNatRepr i.natAbs, hne with
    | d :: ds, _ =>
      simp only []
      rw [← hp, digitsToNat_pyNatRepr]
      have : -(i.natAbs : Int) = i := by omega
      rw [this]
  · rw [if_neg hneg]
    have hne := pyNatRepr_ne_nil i.natAbs
    match hp : pyNatRepr i.natAbs, hne with
    | d :: ds, _ =>
      have hd : 48 ≤ d.toNat ∧ d.toNat ≤ 57 := by
        have := pyNatRepr_digits i.natAbs d (by rw [hp]; simp)
        exact this
      rw [List.cons_append, parseJsonInt]
      rw [if_neg (by
        intro hcon
        rw [hcon] at hd
        revert hd
        decide)]
      rw [← List.cons_append, ← hp,
        readDigits_append _ (pyNatRepr_digits _) c tail hc]
      match hp2 : pyNatRepr i.natAbs, hne with
      | e :: es, _ =>
        simp only []
        rw [← hp2, digitsToNat_pyNatRepr]
        have : (i.natAbs : Int) = i := by omega
        rw [this]

theorem expectChars_append : ∀ p l : List Char, expectChars p (p ++ l) = some l := by
  intro p
  induction p with
  | nil => intro l; rfl
  | cons c cs ih =>
    intro l
    rw [List.cons_append, expectChars, if_pos rfl, ih]

/-- `parseTokenPayloadChars` undoes `jsonDumpsTokenPayload`: the payload parser
is a left inverse of the payload serialiser, for every field value. -/
theorem parseTokenPayload_dumps (sub username role : String) (e i : Int) :
    parseTokenPayloadChars ((jsonDumpsTokenPayload sub username role e i).data)
      = some ⟨sub, username, role, e, i⟩ := by
  have hdata : (jsonDumpsTokenPayload sub username role e i).data
      = ("\x7b\"sub\": ").data ++ ((jsonQuote sub).data ++
        ((", \"username\": ").data ++ ((jsonQuote username).data ++
        ((", \"role\": ").data ++ ((jsonQuote role).data ++
        ((", \"exp\": ").data ++ (pyIntRepr e ++
        ((", \"iat\": ").data ++ (pyIntRepr i ++ ("\x7d").data))))))))) := by
    show ("\x7b\"sub\": ").data ++ (jsonQuote sub).data ++ (", \"username\": ").data ++
      (jsonQuote username).data ++ (", \"role\": ").data ++ (jsonQuote role).data ++
      (", \"exp\": ").data ++ pyIntRepr e ++ (", \"iat\": ").data ++ pyIntRepr i ++
      ("\x7d").data = _
    simp [List.append_assoc]
  rw [hdata]
  unfold parseTokenPayloadChars
  rw [expectChars_append]
  simp only [Option.bind_eq_bind, Option.some_bind]
  rw [parseJsonString_quote]
  simp only [Option.some_bind]
  rw [expectChars_append]
  simp only [Option.some_bind]
  rw [parseJsonString_quote]
  simp only [Option.some_bind]
  rw [expectChars_append]
  simp only [Option.some_bind]
  rw [parseJsonString_quote]
  simp only [Option.some_bind]
  rw [expectChars_append]
  simp only [Option.some_bind]
  rw [show ((", \"iat\": ").data ++ (pyIntRepr i ++ ("\x7d").data))
      = ',' :: ((" \"iat\": ").data ++ (pyIntRepr i ++ ("\x7d").data)) from rfl]
  rw [parseJsonInt_repr e ',' _ (by decide)]
  simp only [Option.some_bind]
  rw [show (',' :: ((" \"iat\": ").data ++ (pyIntRepr i ++ ("\x7d").data)))
      = ((", \"iat\": ").data ++ (pyIntRepr i ++ ("\x7d").data)) from rfl]
  rw [expectChars_append]
  simp only [Option.some_bind]
  rw [parseJsonInt_repr i '\x7d' [] (by decide)]
  simp only [Option.some_bind]
  rw [show expectChars (['\x7d'] : List Char) (['\x7d'] : List Char)
      = some ([] : List Char) from rfl]
  simp only [Option.some_bind]
  rw [if_pos trivial]
  rfl

-- ── Helper lemmas: the serialised payload is ASCII ───────────────────

theorem hex4_ascii (n : Nat) : ∀ x ∈ hex4 n, x.toNat < 128 := by
  intro x hx
  simp [hex4] at hx
  rcases hx with rfl | rfl | rfl | rfl <;> exact hexChar_ascii _ (by omega)

theorem escapeChar_ascii (c : Char) : ∀ x ∈ escapeChar c, x.toNat < 128 := by
  intro x hx
  simp only [escapeChar] at hx
  split_ifs at hx with h1 h2 h3 h4 h5 h6 h7 h8 h9
  · simp at hx; rcases hx with rfl | rfl <;> decide
  · simp at hx; rcases hx with rfl | rfl <;> decide
  · simp at hx; subst hx; omega
  · simp at hx; rcases hx with rfl | rfl <;> decide
  · simp at hx; rcases hx with rfl | rfl <;> decide
  · simp at hx; rcases hx with rfl | rfl <;> decide
  · simp at hx; rcases hx with rfl | rfl <;> decide
  · simp at hx; rcases hx with rfl | rfl <;> decide
  · simp at hx
    rcases hx with rfl | rfl | hmem
    · decide
    · decide
    · exact hex4_ascii _ x hmem
  · simp at hx
    rcases hx with rfl | rfl | hmem | rfl | rfl | hmem
    · decide
    · decide
    · exact hex4_ascii _ x hmem
    · decide
    · decide
    · exact hex4_ascii _ x hmem

theorem jsonQuote_ascii (s : String) : ∀ x ∈ (jsonQuote s).data, x.toNat < 128 := by
  intro x hx
  rw [show (jsonQuote s).data = '"' :: (s.data.flatMap escapeChar ++ ['"']) from rfl] at hx
  simp at hx
  rcases hx with rfl | ⟨c, _, hmem⟩ | rfl
  · decide
  · exact escapeChar_ascii c x hmem
  · decide

theorem pyNatRepr_ascii (n : Nat) : ∀ x ∈ pyNatRepr n, x.toNat < 128 := by
  intro x hx
  have := pyNatRepr_digits n x hx
  omega

theorem pyIntRepr_ascii (i : Int) : ∀ x ∈ pyIntRepr i, x.toNat < 128 := by
  intro x hx
  unfold pyIntRepr at hx
  by_cases h : i < 0
  · rw [if_pos h] at hx
    rcases List.mem_cons.1 hx with rfl | hmem
    · decide
    · exact pyNatRepr_ascii _ x hmem
  · rw [if_neg h] at hx
    exact pyNatRepr_ascii _ x hx

theorem strAscii_append (s t : String) (hs : StrAscii s) (ht : StrAscii t) :
    StrAscii (s ++ t) := by
  intro c hc
  rw [String.data_append] at hc
  rcases List.mem_append.1 hc with h | h
  · exact hs c h
  · exact ht c h

theorem jsonDumps_ascii (sub username role : String) (e i : Int) :
    StrAscii (jsonDumpsTokenPayload sub username role e i) := by
  unfold jsonDumpsTokenPayload
  repeat' apply strAscii_append
  all_goals first
    | decide
    | exact jsonQuote_ascii _
    | (intro c hc; exact pyIntRepr_ascii _ c hc)

-- ── Helper lemmas: digests and signatures are bytes / ASCII ──────────

theorem wordBytes_bytes (n : Nat) : IsBytes (wordBytes n) := by
  intro b hb
  simp [wordBytes] at hb
  rcases hb with rfl | rfl | rfl | rfl <;> omega

theorem sha256_bytes (msg : List Nat) : IsBytes (sha256 msg) := by
  intro b hb
  unfold sha256 at hb
  simp only [List.mem_flatMap] at hb
  obtain ⟨w, _, hbw⟩ := hb
  exact wordBytes_bytes w b hbw

theorem hmacSha256_bytes (key msg : List Nat) : IsBytes (hmacSha256 key msg) := by
  unfold hmacSha256
  exact sha256_bytes _

theorem strAscii_b64Encode (bs : List Nat) (h : IsBytes bs) : StrAscii (b64Encode bs) :=
  fun c hc => b64EncodeList_ascii bs h c hc

theorem no_dot_b64Encode (bs : List Nat) (h : IsBytes bs) : '.' ∉ (b64Encode bs).data :=
  fun hc => b64EncodeList_no_dot bs h '.' hc rfl

theorem strAscii_hmacSign (payload secret : String) : StrAscii (hmacSign payload secret) :=
  strAscii_b64Encode _ (hmacSha256_bytes _ _)

theorem no_dot_hmacSign (payload secret : String) : '.' ∉ (hmacSign payload secret).data :=
  no_dot_b64Encode _ (hmacSha256_bytes _ _)

-- ── C1: token round trip ─────────────────────────────────────────────

/-- The `verify_token ∘ create_token` round trip, fully unfolded. -/
theorem verify_create_roundtrip (u : User) (secret : String) (ttl now now2 : Int)
    (h : now2 < now + ttl) :
    verify_token (create_token u secret ttl now) secret now2
      = .ok ⟨u.id, u.username, u.role, (""), []⟩ := by
  have hbytes : IsBytes (utf8Encode
      (jsonDumpsTokenPayload u.id u.username u.role (now + ttl) now)) :=
    utf8Encode_bytes _
  have hheadbytes : IsBytes (utf8Encode jsonHeaderStr) := utf8Encode_bytes _
  have hct : create_token u secret ttl now
      = b64Encode (utf8Encode jsonHeaderStr) ++ (".") ++
        b64Encode (utf8Encode
          (jsonDumpsTokenPayload u.id u.username u.role (now + ttl) now)) ++ (".") ++
        hmacSign (b64Encode (utf8Encode jsonHeaderStr) ++ (".") ++
          b64Encode (utf8Encode
            (jsonDumpsTokenPayload u.id u.username u.role (now + ttl) now))) secret :=
    rfl
  rw [hct]
  unfold verify_token
  rw [pySplit_three _ _ _ (no_dot_b64Encode _ hheadbytes) (no_dot_b64Encode _ hbytes)
    (no_dot_hmacSign _ _)]
  simp only []
  unfold compare_digest
  rw [if_pos ⟨strAscii_hmacSign _ _, strAscii_hmacSign _ _⟩]
  rw [decide_eq_true (by rfl)]
  simp only []
  rw [show b64Decode (b64Encode (utf8Encode
      (jsonDumpsTokenPayload u.id u.username u.role (now + ttl) now)))
    = b64DecodeList (b64EncodeList (utf8Encode
      (jsonDumpsTokenPayload u.id u.username u.role (now + ttl) now))) from rfl]
  rw [b64_roundtrip _ hbytes]
  simp only [Option.bind_eq_bind, Option.some_bind]
  unfold parseTokenPayload
  rw [show utf8Encode (jsonDumpsTokenPayload u.id u.username u.role (now + ttl) now)
      = (jsonDumpsTokenPayload u.id u.username u.role (now + ttl) now).data.flatMap
          utf8Char from rfl]
  rw [utf8_roundtrip_ascii _ (jsonDumps_ascii _ _ _ _ _)]
  simp only [Option.bind_eq_bind, Option.some_bind]
  rw [parseTokenPayload_dumps]
  simp only []
  rw [if_neg (by omega : ¬ now + ttl < now2)]

-- ── Claim theorems ───────────────────────────────────────────────────

/-- C1: for every identity (id, username, role), every secret string and every
TTL, verifying the token produced by `create_token` under the same secret, at
any instant strictly before issued-at + ttl, returns a `User` with the same
id, username and role. -/
theorem C1_token_roundtrip (u : User) (secret : String) (ttl now now2 : Int)
    (h : now2 < now + ttl) :
    ∃ v : User, verify_token (create_token u secret ttl now) secret now2 = .ok v
      ∧ v.id = u.id ∧ v.username = u.username ∧ v.role = u.role :=
  ⟨⟨u.id, u.username, u.role, (""), []⟩,
    verify_create_roundtrip u secret ttl now now2 h, rfl, rfl, rfl⟩

/-- C1 witness: the round trip at a concrete identity, secret, TTL and clock. -/
theorem C1_token_roundtrip_witness :
    ∃ v : User, verify_token
        (create_token ⟨("u1"), ("yoad"), ("admin"), (""), []⟩ ("s3cret") 3600 1000)
        ("s3cret") 1500 = .ok v
      ∧ v.id = ("u1") ∧ v.username = ("yoad") ∧ v.role = ("admin") :=
  C1_token_roundtrip ⟨("u1"), ("yoad"), ("admin"), (""), []⟩ ("s3cret") 3600 1000 1500
    (by decide)

/-- C6: `require_role` succeeds iff `level(user.role) ≥ level(required_role)`
with viewer ↦ 0, auditor ↦ 1, admin ↦ 2, any other role ↦ 0; on failure it
raises the insufficient-permissions error with status code 403. -/
theorem C6_require_role (u : User) (r : String) :
    ((require_role u r = .ok ()) ↔ role_levels r ≤ role_levels u.role)
    ∧ (role_levels u.role < role_levels r →
        require_role u r = .error (.authError (("Insufficient permissions: ") ++ u.role ++
          (" cannot perform ") ++ r ++ (" actions")) 403))
    ∧ role_levels ("viewer") = 0 ∧ role_levels ("auditor") = 1
    ∧ role_levels ("admin") = 2
    ∧ (∀ s : String, s ≠ ("viewer") → s ≠ ("auditor") → s ≠ ("admin") →
        role_levels s = 0) := by
  refine ⟨?_, ?_, rfl, rfl, rfl, ?_⟩
  · unfold require_role
    constructor
    · intro hok
      by_contra hcon
      rw [if_pos (by omega)] at hok
      exact absurd hok (by simp)
    · intro hle
      rw [if_neg (by omega)]
  · intro hlt
    unfold require_role
    rw [if_pos hlt]
  · intro s h1 h2 h3
    unfold role_levels
    rw [if_neg h1, if_neg h2, if_neg h3]

/-- C6 witness: an auditor denied an admin action with the 403 error. -/
theorem C6_require_role_witness :
    require_role ⟨("u1"), ("a"), ("auditor"), (""), []⟩ ("admin")
      = .error (.authError
          ("Insufficient permissions: auditor cannot perform admin actions") 403) :=
  (C6_require_role ⟨("u1"), ("a"), ("auditor"), (""), []⟩ ("admin")).2.1 (by decide)

theorem pySplitFirstChars_sepFree (sep : Char) :
    ∀ xs : List Char, sep ∉ xs → pySplitFirstChars sep xs = [xs] := by
  intro xs
  induction xs with
  | nil => intro _; rfl
  | cons c rest ih =>
    intro h
    have hc : c ≠ sep := fun hh => h (by simp [hh])
    have hrest : sep ∉ rest := fun hh => h (by simp [hh])
    rw [pySplitFirstChars, if_neg hc, ih hrest]

theorem pySplitFirstChars_append (sep : Char) :
    ∀ xs ys : List Char, sep ∉ xs →
      pySplitFirstChars sep (xs ++ sep :: ys) = [xs, ys] := by
  intro xs ys
  induction xs with
  | nil => intro _; simp [pySplitFirstChars]
  | cons c rest ih =>
    intro h
    have hc : c ≠ sep := fun hh => h (by simp [hh])
    have hrest : sep ∉ rest := fun hh => h (by simp [hh])
    rw [List.cons_append, pySplitFirstChars, if_neg hc]
    rw [ih hrest]

/-- C7: `get_current_user` fails with the missing-credential error on an empty
header; fails with the malformed-credential error when the header has no space
to split on; for a (case-insensitive) `bearer` scheme it returns exactly the
result of token verification; for `apikey` it returns the registry entry,
failing with the unknown-key error when the key is absent; and every other
scheme fails with the unsupported-scheme error. -/
theorem C7_get_current_user (keys : List (String × User)) (now : Int) :
    (get_current_user ("") keys now
      = .error (.authError ("Missing authorization header") 401))
    ∧ (∀ auth : String, auth ≠ ("") → ' ' ∉ auth.data →
        get_current_user auth keys now
          = .error (.authError ("Invalid authorization format") 401))
    ∧ (∀ scheme cred : String, ' ' ∉ scheme.data →
        (pyLower scheme = ("bearer") →
          get_current_user (scheme ++ (" ") ++ cred) keys now
            = verify_token cred _JWT_SECRET now)
        ∧ (pyLower scheme = ("apikey") →
            get_current_user (scheme ++ (" ") ++ cred) keys now
              = verify_api_key cred keys)
        ∧ (pyLower scheme ≠ ("bearer") → pyLower scheme ≠ ("apikey") →
            get_current_user (scheme ++ (" ") ++ cred) keys now
              = .error (.authError (("Unsupported auth scheme: ") ++ scheme) 401)))
    ∧ (∀ k : String, (keys.lookup k = none →
          verify_api_key k keys = .error (.authError ("Invalid API key") 401))
        ∧ (∀ v : User, keys.lookup k = some v → verify_api_key k keys = .ok v)) := by
  refine ⟨rfl, ?_, ?_, ?_⟩
  · intro auth hne hns
    unfold get_current_user
    rw [if_neg hne]
    unfold pySplit1
    rw [pySplitFirstChars_sepFree ' ' auth.data hns]
    rfl
  · intro scheme cred hsp
    have hdata : (scheme ++ (" ") ++ cred).data = scheme.data ++ ' ' :: cred.data := by
      show scheme.data ++ [' '] ++ cred.data = _
      simp
    have hsplit : pySplit1 ' ' (scheme ++ (" ") ++ cred) = [scheme, cred] := by
      unfold pySplit1
      rw [hdata, pySplitFirstChars_append ' ' scheme.data cred.data hsp]
      show [List.asString scheme.data, List.asString cred.data] = _
      simp only [List.asString]
    have hne : scheme ++ (" ") ++ cred ≠ ("") := by
      intro he
      have := congrArg String.data he
      rw [hdata] at this
      simp at this
    refine ⟨?_, ?_, ?_⟩
    · intro hb
      unfold get_current_user
      rw [if_neg hne, hsplit]
      simp only []
      rw [if_pos hb]
    · intro ha
      unfold get_current_user
      rw [if_neg hne, hsplit]
      simp only []
      rw [if_neg (by rw [ha]; decide), if_pos ha]
    · intro hnb hna
      unfold get_current_user
      rw [if_neg hne, hsplit]
      simp only []
      rw [if_neg hnb, if_neg hna]
  · intro k
    constructor
    · intro hnone
      unfold verify_api_key
      rw [hnone]
    · intro v hv
      unfold verify_api_key
      rw [hv]

/-- C7 witness: a registered API key resolves through the `apikey` scheme. -/
theorem C7_get_current_user_witness :
    get_current_user (("ApiKey") ++ (" ") ++ ("k1"))
        [(("k1"), ⟨("u1"), ("a"), ("viewer"), (""), []⟩)] 0
      = .ok ⟨("u1"), ("a"), ("viewer"), (""), []⟩ :=
  (((C7_get_current_user [(("k1"), ⟨("u1"), ("a"), ("viewer"), (""), []⟩)] 0).2.2.1
    ("ApiKey") ("k1") (by decide)).2.1 (by decide)).trans (by rfl)

-- ── C4 / C9 / C10: webhook verification and handlers ─────────────────

theorem strAscii_hexDigest (bs : List Nat) (h : IsBytes bs) : StrAscii (hexDigest bs) := by
  intro c hc
  unfold hexDigest at hc
  rw [show ((bs.flatMap fun b => [hexChar (b / 16), hexChar (b % 16)]).asString).data
      = bs.flatMap fun b => [hexChar (b / 16), hexChar (b % 16)] from rfl] at hc
  simp only [List.mem_flatMap] at hc
  obtain ⟨b, hb, hcb⟩ := hc
  have := h b hb
  simp at hcb
  rcases hcb with rfl | rfl <;> exact hexChar_ascii _ (by omega)

theorem strAscii_expected (secret : String) (body : List Nat) :
    StrAscii (("sha256=") ++ hexDigest (hmacSha256 (utf8Encode secret) body)) :=
  strAscii_append _ _ (by decide) (strAscii_hexDigest _ (hmacSha256_bytes _ _))

/-- C4: GitHub-style signature verification: an empty secret always succeeds;
a non-empty secret succeeds exactly when the header is the `sha256=`-prefixed
hex HMAC-SHA256 of the body; and a body whose digest differs (in particular a
mutated body) is rejected against the original valid header. -/
theorem C4_github_signature (body : List Nat) (header secret : String) :
    (secret = ("") → _verify_github_signature body header secret = .ok true)
    ∧ (secret ≠ ("") →
        (_verify_github_signature body header secret = .ok true ↔
          header = ("sha256=") ++ hexDigest (hmacSha256 (utf8Encode secret) body)))
    ∧ (∀ body2 : List Nat, secret ≠ ("") →
        header = ("sha256=") ++ hexDigest (hmacSha256 (utf8Encode secret) body) →
        hexDigest (hmacSha256 (utf8Encode secret) body2)
          ≠ hexDigest (hmacSha256 (utf8Encode secret) body) →
        _verify_github_signature body2 header secret = .ok false) := by
  refine ⟨?_, ?_, ?_⟩
  · intro hs
    unfold _verify_github_signature
    rw [if_pos hs]
  · intro hs
    constructor
    · intro hok
      unfold _verify_github_signature at hok
      rw [if_neg hs] at hok
      by_cases hcase : header = ("") ∨ ¬ pyStartsWith header ("sha256=")
      · rw [if_pos hcase] at hok
        exact absurd hok (by simp)
      · rw [if_neg hcase] at hok
        unfold compare_digest at hok
        by_cases hascii : StrAscii (("sha256=") ++
            hexDigest (hmacSha256 (utf8Encode secret) body)) ∧ StrAscii header
        · rw [if_pos hascii] at hok
          simp only [Except.ok.injEq, decide_eq_true_eq] at hok
          exact hok.symm
        · rw [if_neg hascii] at hok
          exact absurd hok (by simp)
    · intro hh
      unfold _verify_github_signature
      rw [if_neg hs]
      have hstart : pyStartsWith header ("sha256=") = true := by
        rw [hh]
        unfold pyStartsWith
        rw [String.data_append]
        rw [List.isPrefixOf_iff_prefix]
        exact List.prefix_append _ _
      have hne : header ≠ ("") := by
        intro he
        rw [he] at hstart
        exact absurd hstart (by decide)
      rw [if_neg (by simp [hstart, hne])]
      unfold compare_digest
      rw [if_pos ⟨strAscii_expected secret body, hh ▸ strAscii_expected secret body⟩]
      rw [hh, decide_eq_true rfl]
  · intro body2 hs hh hdig
    unfold _verify_github_signature
    rw [if_neg hs]
    have hstart : pyStartsWith header ("sha256=") = true := by
      rw [hh]
      unfold pyStartsWith
      rw [String.data_append, List.isPrefixOf_iff_prefix]
      exact List.prefix_append _ _
    have hne : header ≠ ("") := by
      intro he
      rw [he] at hstart
      exact absurd hstart (by decide)
    rw [if_neg (by simp [hstart, hne])]
    unfold compare_digest
    rw [if_pos ⟨strAscii_expected secret body2, hh ▸ strAscii_expected secret body⟩]
    have hneq : ("sha256=") ++ hexDigest (hmacSha256 (utf8Encode secret) body2)
        ≠ header := by
      intro he
      apply hdig
      have h2 := congrArg String.data (he.trans hh)
      rw [String.data_append, String.data_append] at h2
      have h3 := List.append_cancel_left h2
      have h4 := congrArg List.asString h3
      rwa [asString_data, asString_data] at h4
    rw [decide_eq_false hneq]

set_option maxRecDepth 8192 in
set_option maxHeartbeats 2000000 in
/-- C4 witness: a concrete body verifies against its own signature header, and
the same header rejects a body with the first byte changed. -/
theorem C4_github_signature_witness :
    _verify_github_signature [1, 2, 3]
        (("sha256=") ++ hexDigest (hmacSha256 (utf8Encode ("s")) [1, 2, 3])) ("s")
      = .ok true
    ∧ _verify_github_signature [0, 2, 3]
        (("sha256=") ++ hexDigest (hmacSha256 (utf8Encode ("s")) [1, 2, 3])) ("s")
      = .ok false :=
  ⟨((C4_github_signature [1, 2, 3] _ ("s")).2.1 (by decide)).2 rfl,
   (C4_github_signature [1, 2, 3] _ ("s")).2.2 [0, 2, 3] (by decide) rfl (by decide)⟩

/-- C9 counterexample: with the non-empty secret `"ü"` and a token header equal
to that secret, verification does not succeed — `hmac.compare_digest` on
non-ASCII strings raises `TypeError` — refuting "with a non-empty secret it
succeeds if and only if the token header equals the secret". -/
theorem C9_gitlab_token_counterexample :
    (("ü") : String) ≠ ("")
    ∧ (("ü") : String) = ("ü")
    ∧ _verify_gitlab_token ("ü") ("ü") ≠ .ok true
    ∧ _verify_gitlab_token ("ü") ("ü") = .error .typeError := by
  refine ⟨by decide, rfl, ?_, ?_⟩ <;> decide

/-- C9 (amended): GitLab-style shared-token verification with an empty secret
always succeeds; with a non-empty secret it succeeds iff the header equals the
secret, provided both are ASCII (a non-ASCII comparison raises `TypeError`
instead); and any missing or non-matching ASCII header with a configured
ASCII secret makes the gitlab endpoint fail with the 401 authentication
error. -/
theorem C9_gitlab_token (header secret : String) :
    (secret = ("") → _verify_gitlab_token header secret = .ok true)
    ∧ (secret ≠ ("") → StrAscii header → StrAscii secret →
        (_verify_gitlab_token header secret = .ok true ↔ header = secret))
    ∧ (∀ (parsed : Option JsonVal) (event_id : String) (insert_ok : Bool)
        (now : Int) (events : List WebhookEventRow),
        secret ≠ ("") → StrAscii header → StrAscii secret → header ≠ secret →
        gitlab_webhook header secret parsed event_id insert_ok now events
          = .error (.httpException 401 ("Invalid webhook token"))) := by
  have hver : secret ≠ ("") → StrAscii header → StrAscii secret → header ≠ secret →
      _verify_gitlab_token header secret = .ok false := by
    intro hs hah has hne
    unfold _verify_gitlab_token
    rw [if_neg hs]
    by_cases hhe : header = ("")
    · rw [if_pos hhe]
    · rw [if_neg hhe]
      unfold compare_digest
      rw [if_pos ⟨has, hah⟩, decide_eq_false (fun he => hne he.symm)]
  refine ⟨?_, ?_, ?_⟩
  · intro hs
    unfold _verify_gitlab_token
    rw [if_pos hs]
  · intro hs hah has
    constructor
    · intro hok
      by_contra hne
      rw [hver hs hah has hne] at hok
      exact absurd hok (by simp)
    · intro he
      unfold _verify_gitlab_token
      rw [if_neg hs, if_neg (by rw [he]; exact hs)]
      unfold compare_digest
      rw [if_pos ⟨has, hah⟩, he, decide_eq_true rfl]
  · intro parsed event_id insert_ok now events hs hah has hne
    unfold gitlab_webhook
    rw [hver hs hah has hne]

/-- C9 witness: a missing header with a configured ASCII secret is rejected by
the endpoint with the 401 error. -/
theorem C9_gitlab_token_witness :
    gitlab_webhook ("") ("tok") (some (.obj [])) ("e1") true 0 []
      = .error (.httpException 401 ("Invalid webhook token")) :=
  (C9_gitlab_token ("") ("tok")).2.2 (some (.obj []))
    ("e1") true 0 [] (by decide) (by decide) (by decide) (by decide)

/-- C10 counterexample: with verification passing (the documented dev-mode
empty secrets) and a body whose JSON parse succeeds but is not an object —
`[]` for GitHub, `5` for GitLab — the `.get` field extraction raises
`AttributeError`, which no handler-level `try` catches (an unhandled 500), so
the handler does not return the accepted response: this refutes "whenever
signature/token verification and JSON body parsing succeed, the handler
returns an accepted (202) response". -/
theorem C10_accepted_counterexample :
    _verify_github_signature (utf8Encode ("[]")) ("") ("") = .ok true
    ∧ github_webhook (utf8Encode ("[]")) ("") ("") (some (.arr [])) ("push") ("id-1")
        true 0 [] = .error .attributeError
    ∧ _verify_gitlab_token ("") ("") = .ok true
    ∧ gitlab_webhook ("") ("") (some (.num 5)) ("id-2") true 0 []
        = .error .attributeError
    ∧ (∀ r : WebhookResponse × List WebhookEventRow,
        github_webhook (utf8Encode ("[]")) ("") ("") (some (.arr [])) ("push") ("id-1")
          true 0 [] ≠ .ok r) := by
  have he : github_webhook (utf8Encode ("[]")) ("") ("") (some (.arr [])) ("push")
      ("id-1") true 0 [] = .error .attributeError := rfl
  refine ⟨rfl, he, rfl, rfl, ?_⟩
  intro r h
  rw [he] at h
  exact Except.noConfusion h

/-- C10 (amended): for both endpoints, whenever verification succeeds, the
JSON body parses, and the payload `.get` field extraction succeeds, the
handler returns the accepted response carrying the fresh event id whether or
not the database insert succeeds — a failed insert is caught and changes only
the persisted table, never the response.  (A parse-succeeding body on which a
`.get` chain fails instead raises an unhandled `AttributeError`, per the
counterexample.) -/
theorem C10_accepted_despite_insert_failure :
    (∀ (body : List Nat) (sig secret : String) (payload : JsonVal)
        (event_type event_id : String) (now : Int) (events : List WebhookEventRow)
        (insert_ok : Bool) (repository ref sender action : JsonVal),
      _verify_github_signature body sig secret = .ok true →
      githubExtract payload = .ok (repository, ref, sender, action) →
      ∃ msg : String,
        github_webhook body sig secret (some payload) event_type event_id insert_ok
            now events
          = .ok (⟨("accepted"), msg, some event_id⟩,
            if insert_ok then
              events ++ [⟨event_id, ("github"), .str event_type, repository, ref,
                sender, action, now⟩]
            else events))
    ∧ (∀ (tok secret : String) (payload : JsonVal) (event_id : String) (now : Int)
        (events : List WebhookEventRow) (insert_ok : Bool)
        (event_type repository ref sender : JsonVal),
      _verify_gitlab_token tok secret = .ok true →
      gitlabExtract payload = .ok (event_type, repository, ref, sender) →
      ∃ msg : String,
        gitlab_webhook tok secret (some payload) event_id insert_ok now events
          = .ok (⟨("accepted"), msg, some event_id⟩,
            if insert_ok then
              events ++ [⟨event_id, ("gitlab"), event_type, repository, ref, sender,
                .str (""), now⟩]
            else events)) := by
  constructor
  · intro body sig secret payload event_type event_id now events insert_ok
      repository ref sender action hv hx
    unfold github_webhook
    rw [hv]
    simp only []
    rw [hx]
    exact ⟨_, rfl⟩
  · intro tok secret payload event_id now events insert_ok
      event_type repository ref sender hv hx
    unfold gitlab_webhook
    rw [hv]
    simp only []
    rw [hx]
    exact ⟨_, rfl⟩

/-- C10 witness: verification passing, an object body, and a failing insert
still yield the accepted response with the event id and an unchanged table. -/
theorem C10_accepted_witness :
    ∃ msg : String,
      github_webhook [] ("") ("")
          (some (.obj [(("ref"), .str ("main"))])) ("push") ("id-1") false 0 []
        = .ok (⟨("accepted"), msg, some ("id-1")⟩, []) := by
  obtain ⟨msg, hm⟩ := (C10_accepted_despite_insert_failure).1 [] ("") ("")
    (.obj [(("ref"), .str ("main"))]) ("push") ("id-1") 0 [] false
    (.str ("")) (.str ("main")) (.str ("")) (.str ("")) (by decide) rfl
  exact ⟨msg, hm.trans (by rfl)⟩

-- ── C2 / C3 / C8: worker lemmas ──────────────────────────────────────

theorem tenants_any_eq_false (l : List TenantRow) (t : String)
    (h : ∀ r ∈ l, r.id ≠ t) : (l.any fun r => r.id = t) = false := by
  simp only [List.any_eq_false, decide_eq_true_eq]
  exact h

theorem usage_any_eq_false (l : List TenantUsageRow) (t : String)
    (h : ∀ r ∈ l, r.tenant_id ≠ t) : (l.any fun r => r.tenant_id = t) = false := by
  simp only [List.any_eq_false, decide_eq_true_eq]
  exact h

theorem usage_map_id (l : List TenantUsageRow) (t : String)
    (h : ∀ r ∈ l, r.tenant_id ≠ t)
    (g : TenantUsageRow → TenantUsageRow) :
    (l.map fun r => if r.tenant_id = t then g r else r) = l := by
  induction l with
  | nil => rfl
  | cons r rest ih =>
    rw [List.map_cons, if_neg (h r (by simp)), ih fun x hx => h x (by simp [hx])]

/-- The worker effect of one parsed message on a database where the tenant is
absent from both tables: one `tenants` row and one `tenant_usage` row are
created, and the selected counter is incremented. -/
theorem processMessage_usage_absent (t : String) (ht : t ≠ (""))
    (meta : Option String) (x now : Int) (db : WorkerDb)
    (h1 : ∀ r ∈ db.tenants, r.id ≠ t) (h2 : ∀ r ∈ db.tenant_usage, r.tenant_id ≠ t) :
    processMessage ("atlas.ai.usage") ⟨some t, meta, x⟩ now db
      = ⟨db.tenants ++ [⟨t, t, ("free")⟩], db.tenant_usage ++ [⟨t, 0, 0 + x, now⟩]⟩ := by
  unfold processMessage
  rw [show extractTenantId ⟨some t, meta, x⟩ = t by
    unfold extractTenantId
    simp only []
    rw [if_neg ht]]
  rw [if_pos rfl]
  unfold insertTenantIfAbsent
  rw [tenants_any_eq_false _ _ h1, if_neg (by simp)]
  unfold insertUsageIfAbsent
  simp only []
  rw [usage_any_eq_false _ _ h2, if_neg (by simp)]
  unfold updateTokens
  rw [List.map_append, usage_map_id _ _ h2]
  simp

/-- The worker effect of a second usage message for a tenant already present
exactly as the single freshly created row. -/
theorem processMessage_usage_present (t : String) (ht : t ≠ (""))
    (meta : Option String) (x now : Int) (tens : List TenantRow)
    (us : List TenantUsageRow) (row : TenantUsageRow) (hrow : row.tenant_id = t)
    (h2 : ∀ r ∈ us, r.tenant_id ≠ t)
    (hmem : ∃ r ∈ tens, r.id = t) :
    processMessage ("atlas.ai.usage") ⟨some t, meta, x⟩ now ⟨tens, us ++ [row]⟩
      = ⟨tens, us ++ [⟨t, row.scans_count, row.token_count + x, now⟩]⟩ := by
  unfold processMessage
  rw [show extractTenantId ⟨some t, meta, x⟩ = t by
    unfold extractTenantId
    simp only []
    rw [if_neg ht]]
  rw [if_pos rfl]
  unfold insertTenantIfAbsent
  rw [show (tens.any fun r => r.id = t) = true by
    simp only [List.any_eq_true, decide_eq_true_eq]
    exact hmem]
  rw [if_pos rfl]
  unfold insertUsageIfAbsent
  simp only []
  rw [show ((us ++ [row]).any fun r => r.tenant_id = t) = true by
    simp only [List.any_eq_true, decide_eq_true_eq]
    exact ⟨row, by simp, hrow⟩]
  rw [if_pos rfl]
  unfold updateTokens
  rw [List.map_append, usage_map_id _ _ h2]
  simp [hrow]

/-- C2: two usage-stream events for the same tenant id not yet in the store —
in either order — create exactly one `tenants` row and one `tenant_usage` row
for it and leave `token_count` at the sum of the two `tokens_used` values. -/
theorem C2_usage_aggregation (t : String) (ht : t ≠ ("")) (a b n1 n2 : Int)
    (db : WorkerDb) (h1 : ∀ r ∈ db.tenants, r.id ≠ t)
    (h2 : ∀ r ∈ db.tenant_usage, r.tenant_id ≠ t) :
    processMessage ("atlas.ai.usage") ⟨some t, none, b⟩ n2
        (processMessage ("atlas.ai.usage") ⟨some t, none, a⟩ n1 db)
      = ⟨db.tenants ++ [⟨t, t, ("free")⟩], db.tenant_usage ++ [⟨t, 0, a + b, n2⟩]⟩
    ∧ processMessage ("atlas.ai.usage") ⟨some t, none, a⟩ n2
        (processMessage ("atlas.ai.usage") ⟨some t, none, b⟩ n1 db)
      = ⟨db.tenants ++ [⟨t, t, ("free")⟩], db.tenant_usage ++ [⟨t, 0, a + b, n2⟩]⟩
    ∧ ((db.tenants ++ ([⟨t, t, ("free")⟩] : List TenantRow)).countP
        fun r => r.id = t) = 1
    ∧ ((db.tenant_usage ++ ([⟨t, 0, a + b, n2⟩] : List TenantUsageRow)).countP
        fun r => r.tenant_id = t) = 1 := by
  refine ⟨?_, ?_, ?_, ?_⟩
  · rw [processMessage_usage_absent t ht none a n1 db h1 h2]
    rw [processMessage_usage_present t ht none b n2 _ _ ⟨t, 0, 0 + a, n1⟩ rfl h2
      ⟨⟨t, t, ("free")⟩, by simp, rfl⟩]
    rw [show (0 : Int) + a + b = a + b by ring]
  · rw [processMessage_usage_absent t ht none b n1 db h1 h2]
    rw [processMessage_usage_present t ht none a n2 _ _ ⟨t, 0, 0 + b, n1⟩ rfl h2
      ⟨⟨t, t, ("free")⟩, by simp, rfl⟩]
    rw [show (0 : Int) + b + a = a + b by ring]
  · rw [List.countP_append]
    rw [show (db.tenants.countP fun r => r.id = t) = 0 by
      simp only [List.countP_eq_zero, decide_eq_true_eq]
      exact h1]
    simp
  · rw [List.countP_append]
    rw [show (db.tenant_usage.countP fun r => r.tenant_id = t) = 0 by
      simp only [List.countP_eq_zero, decide_eq_true_eq]
      exact h2]
    simp

/-- C2 witness: the spec scenario — tenant `"acme"`, token counts 100 and 50,
empty store — in both orders ends at `token_count = 150` with single rows. -/
theorem C2_usage_aggregation_witness :
    processMessage ("atlas.ai.usage") ⟨some ("acme"), none, 50⟩ 20
        (processMessage ("atlas.ai.usage") ⟨some ("acme"), none, 100⟩ 10 ⟨[], []⟩)
      = ⟨[⟨("acme"), ("acme"), ("free")⟩], [⟨("acme"), 0, 150, 20⟩]⟩
    ∧ processMessage ("atlas.ai.usage") ⟨some ("acme"), none, 100⟩ 20
        (processMessage ("atlas.ai.usage") ⟨some ("acme"), none, 50⟩ 10 ⟨[], []⟩)
      = ⟨[⟨("acme"), ("acme"), ("free")⟩], [⟨("acme"), 0, 150, 20⟩]⟩ := by
  have h := C2_usage_aggregation ("acme") (by decide) 100 50 10 20 ⟨[], []⟩
    (by simp) (by simp)
  exact ⟨h.1.trans (by decide), h.2.1.trans (by decide)⟩

theorem foldl_handleEntry_acks (stream : String) (now : Int) :
    ∀ (entries : List StreamMsg) (st : WorkerDb × List (String × String)),
      (entries.foldl (handleEntry stream now) st).2
        = st.2 ++ entries.map (fun m => (stream, m.msgId)) := by
  intro entries
  induction entries with
  | nil => intro st; simp
  | cons m rest ih =>
    intro st
    rw [List.foldl_cons, ih, List.map_cons]
    unfold handleEntry
    simp

theorem processBatch_acks_general (now : Int) :
    ∀ (messages : List (String × List StreamMsg)) (st : WorkerDb × List (String × String)),
      (messages.foldl (fun st se => se.2.foldl (handleEntry se.1 now) st) st).2
        = st.2 ++ messages.flatMap (fun se => se.2.map fun m => (se.1, m.msgId)) := by
  intro messages
  induction messages with
  | nil => intro st; simp
  | cons se rest ih =>
    intro st
    rw [List.foldl_cons, ih, List.flatMap_cons, foldl_handleEntry_acks]
    simp

/-- C3: every message read in a batch is acknowledged exactly once, in order,
whatever the processing outcome of each message; a message whose processing
raises leaves the database untouched but is still acknowledged, and the
remaining messages of the batch are still processed. -/
theorem C3_ack_exactly_once (now : Int) (messages : List (String × List StreamMsg))
    (db : WorkerDb) :
    (processBatch now messages db).2
      = messages.flatMap (fun se => se.2.map fun m => (se.1, m.msgId))
    ∧ (∀ (stream : String) (m : StreamMsg) (st : WorkerDb × List (String × String)),
        m.parse = none →
        handleEntry stream now st m = (st.1, st.2 ++ [(stream, m.msgId)]))
    ∧ (∀ (stream : String) (m : StreamMsg) (st : WorkerDb × List (String × String))
        (p : WorkerPayload), m.parse = some p →
        handleEntry stream now st m
          = (processMessage stream p now st.1, st.2 ++ [(stream, m.msgId)])) := by
  refine ⟨?_, ?_, ?_⟩
  · unfold processBatch
    rw [processBatch_acks_general]
    simp
  · intro stream m st hm
    unfold handleEntry tryProcessMessage
    rw [hm]
  · intro stream m st p hm
    unfold handleEntry tryProcessMessage
    rw [hm]

/-- C3 witness: a two-stream batch whose middle message fails to parse still
acknowledges all three messages exactly once, in order. -/
theorem C3_ack_exactly_once_witness :
    (processBatch 0
        [(("atlas.ai.usage"),
          [⟨("1-1"), some ⟨some ("acme"), none, 5⟩⟩, ⟨("1-2"), none⟩]),
         (("atlas.scan.requests"), [⟨("2-1"), some ⟨none, none, 0⟩⟩])]
        ⟨[], []⟩).2
      = [(("atlas.ai.usage"), ("1-1")), (("atlas.ai.usage"), ("1-2")),
         (("atlas.scan.requests"), ("2-1"))] :=
  (C3_ack_exactly_once 0
    [(("atlas.ai.usage"),
      [⟨("1-1"), some ⟨some ("acme"), none, 5⟩⟩, ⟨("1-2"), none⟩]),
     (("atlas.scan.requests"), [⟨("2-1"), some ⟨none, none, 0⟩⟩])]
    ⟨[], []⟩).1.trans (by rfl)

/-- The worker effect of one scan-request message on a database where the
tenant is absent from both tables. -/
theorem processMessage_scan_absent (t : String) (p : WorkerPayload)
    (hp : extractTenantId p = t) (now : Int) (db : WorkerDb)
    (h1 : ∀ r ∈ db.tenants, r.id ≠ t) (h2 : ∀ r ∈ db.tenant_usage, r.tenant_id ≠ t) :
    processMessage ("atlas.scan.requests") p now db
      = ⟨db.tenants ++ [⟨t, t, ("free")⟩], db.tenant_usage ++ [⟨t, 0 + 1, 0, now⟩]⟩ := by
  unfold processMessage
  rw [hp, if_neg (by decide), if_pos rfl]
  unfold insertTenantIfAbsent
  rw [tenants_any_eq_false _ _ h1, if_neg (by simp)]
  unfold insertUsageIfAbsent
  simp only []
  rw [usage_any_eq_false _ _ h2, if_neg (by simp)]
  unfold updateScans
  rw [List.map_append, show (List.map (fun r =>
      if r.tenant_id = t then
        (⟨r.tenant_id, r.scans_count + 1, r.token_count, now⟩ : TenantUsageRow)
      else r) db.tenant_usage) = db.tenant_usage from usage_map_id _ _ h2 _]
  simp

/-- C8: a scan-request message with no tenant id in `payload.tenant_id` (absent
or empty) and none under `payload.metadata.tenant_id` is attributed to the
sentinel `"default"` tenant — whose rows are created if absent and whose
`scans_count` is incremented — and processing it raises no error; the fallback
chain is `payload.tenant_id`, then `payload.metadata.tenant_id`, then
`"default"`. -/
theorem C8_default_tenant (p : WorkerPayload) (now : Int) (db : WorkerDb)
    (hp : p.tenant_id = none ∨ p.tenant_id = some (""))
    (hm : p.metadata_tenant_id = none)
    (h1 : ∀ r ∈ db.tenants, r.id ≠ ("default"))
    (h2 : ∀ r ∈ db.tenant_usage, r.tenant_id ≠ ("default")) :
    extractTenantId p = ("default")
    ∧ processMessage ("atlas.scan.requests") p now db
      = ⟨db.tenants ++ [⟨("default"), ("default"), ("free")⟩],
         db.tenant_usage ++ [⟨("default"), 0 + 1, 0, now⟩]⟩
    ∧ (∀ (mid : String),
        tryProcessMessage ("atlas.scan.requests") now ⟨mid, some p⟩ db
          = .ok (processMessage ("atlas.scan.requests") p now db))
    ∧ (∀ (tid : String) (meta : Option String) (tok : Int), tid ≠ ("") →
        extractTenantId ⟨some tid, meta, tok⟩ = tid)
    ∧ (∀ (m : String) (tok : Int),
        extractTenantId ⟨none, some m, tok⟩ = m) := by
  have hext : extractTenantId p = ("default") := by
    unfold extractTenantId
    rcases hp with hp | hp <;> rw [hp] <;> simp only [] <;> rw [hm] <;> rfl
  refine ⟨hext, ?_, ?_, ?_, ?_⟩
  · exact processMessage_scan_absent ("default") p hext now db h1 h2
  · intro mid
    unfold tryProcessMessage
    rfl
  · intro tid meta tok htid
    unfold extractTenantId
    simp only []
    rw [if_neg htid]
  · intro m tok
    unfold extractTenantId
    rfl

/-- C8 witness: the spec scenario — a scan message with no tenant context on an
empty store increments the default tenant scan counter. -/
theorem C8_default_tenant_witness :
    processMessage ("atlas.scan.requests") ⟨none, none, 0⟩ 7 ⟨[], []⟩
      = ⟨[⟨("default"), ("default"), ("free")⟩], [⟨("default"), 1, 0, 7⟩]⟩ :=
  ((C8_default_tenant ⟨none, none, 0⟩ 7 ⟨[], []⟩ (Or.inl rfl) rfl (by simp)
    (by simp)).2.1).trans (by decide)

/-- C5 (amended): a token whose dot-split is not exactly 3 segments always
fails with the malformed-token error, before any cryptographic work and
whatever the secret; and for a valid 3-segment token, replacing the signature
segment by any different dot-free ASCII string — in particular altering any
single character to an ASCII character other than `.` — fails with the
bad-signature error, reached before the payload is decoded. -/
theorem C5_verify_errors :
    (∀ (token secret : String) (now : Int), (pySplit '.' token).length ≠ 3 →
      verify_token token secret now = .error (.authError ("Invalid token format") 401))
    ∧ (∀ (h p s2 secret : String) (now : Int), '.' ∉ h.data → '.' ∉ p.data →
        '.' ∉ s2.data → StrAscii s2 → s2 ≠ hmacSign (h ++ (".") ++ p) secret →
        verify_token (h ++ (".") ++ p ++ (".") ++ s2) secret now
          = .error (.authError ("Invalid token signature") 401)) := by
  constructor
  · intro token secret now hlen
    unfold verify_token
    generalize hg : pySplit '.' token = l
    rw [hg] at hlen
    rcases l with _ | ⟨a, _ | ⟨b, _ | ⟨c, _ | ⟨d, rest⟩⟩⟩⟩
    · rfl
    · rfl
    · rfl
    · simp at hlen
    · rfl
  · intro h p s2 secret now hh hp hs2 hascii hne
    unfold verify_token
    rw [pySplit_three h p s2 hh hp hs2]
    simp only []
    unfold compare_digest
    rw [if_pos ⟨hascii, strAscii_hmacSign _ _⟩, decide_eq_false hne]

set_option maxRecDepth 8192 in
set_option maxHeartbeats 2000000 in
/-- C5 witness: a short valid token with its whole signature segment replaced
by a different dot-free ASCII string fails with the bad-signature error. -/
theorem C5_verify_errors_witness :
    (pySplit '.' ("xx")).length ≠ 3
    ∧ verify_token ("xx") ("s") 0 = .error (.authError ("Invalid token format") 401)
    ∧ (("AAAA") : String) ≠ hmacSign (("h") ++ (".") ++ ("p")) ("s")
    ∧ verify_token (("h") ++ (".") ++ ("p") ++ (".") ++ ("AAAA")) ("s") 0
      = .error (.authError ("Invalid token signature") 401) :=
  ⟨by decide,
   (C5_verify_errors).1 ("xx") ("s") 0 (by decide),
   by decide,
   (C5_verify_errors).2 ("h") ("p") ("AAAA") ("s") 0 (by decide) (by decide)
     (by decide) (by decide) (by decide)⟩

set_option maxRecDepth 8192 in
set_option maxHeartbeats 4000000 in
/-- C5 counterexample: altering one character of the signature segment of a
valid token to `'.'` makes `verify_token` fail with the malformed-token
(format) error, not the bad-signature error — refuting "altering any single
character of the signature segment makes verify_token fail with the
BadSignature reason". -/
theorem C5_verify_errors_counterexample :
    (let t := create_token ⟨("u1"), ("yoad"), ("admin"), (""), []⟩ ("s") 3600 1000
     let parts := pySplit '.' t
     let sg := parts.getD 2 ("")
     let sg2 := List.asString ('.' :: sg.data.tail)
     let t2 := parts.getD 0 ("") ++ (".") ++ parts.getD 1 ("") ++ (".") ++ sg2
     verify_token t ("s") 1500 = .ok ⟨("u1"), ("yoad"), ("admin"), (""), []⟩
     ∧ sg2.length = sg.length
     ∧ sg2 ≠ sg
     ∧ sg2.data.tail = sg.data.tail
     ∧ verify_token t2 ("s") 1500 = .error (.authError ("Invalid token format") 401)
     ∧ verify_token t2 ("s") 1500
        ≠ .error (.authError ("Invalid token signature") 401)) := by
  decide
